import Mathlib

/-! MERGE statement builder (merge.go, merge_ctx.go, errors.go)

A shallow embedding of the `mergeData` renderer and of the `MergeBuilder`
fluent calls, followed by the properties proved about them.

Conventions of the embedding
* A Go `string` is a Lean `String`; `bytes.Buffer` is the `String` written so far,
  passed in and handed back by every routine that writes to it.
* A Go `interface{}` value is a `Value`; a `Sqlizer` is known by what its `ToSql`
  returns, the triple `(sql, args, err)`.
* A Go result `(sqlStr, args, err)` is the triple `String × List Value × Option Err`
  with `none` for a `nil` error and `[]` for a `nil` slice.
-/

namespace Squirrel

/-! ## Errors (errors.go and the runner errors named in merge.go / merge_ctx.go) -/

/-- Error values. `ErrNoTable` and `ErrNoValues` are the two package variables of
errors.go; `RunnerNotSet`, `RunnerNotQueryRunner` and `NoContextSupport` are the package
variables used by the runner methods; `other msg` is any error made with
`errors.New(msg)` or coming from outside the package. -/
inductive Err where
  | ErrNoTable
  | ErrNoValues
  | RunnerNotSet
  | RunnerNotQueryRunner
  | NoContextSupport
  | other (msg : String)
  deriving DecidableEq, Repr

/-! ## Values and statement fragments -/

/-- A Go `interface{}` value as it can occur in a value row or in an argument list:
`nil`, a plain scalar (`int`, `str`), a `Typed{Type, Value}` wrapper (merge.go l.15-18), or a
`Sqlizer`, given by the triple its `ToSql` returns. -/
inductive Value where
  | nil
  | int (n : Int)
  | str (s : String)
  | typed (ty : String) (v : Value)
  | sqlizer (sql : String) (args : List Value) (err : Option Err)

/-- A statement fragment (`Sqlizer`): the triple returned by its `ToSql`. -/
structure Sqlizer where
  sql : String
  args : List Value
  err : Option Err

/-- The fragment seen as an `interface{}` value. -/
def Sqlizer.toValue (s : Sqlizer) : Value := Value.sqlizer s.sql s.args s.err

/-- The type assertion `val.(Sqlizer)` of merge.go l.149. -/
def Value.asSqlizer : Value → Option Sqlizer
  | Value.sqlizer sql args err => some ⟨sql, args, err⟩
  | _ => none

/-- What a render returns: `(sqlStr, args, err)`. -/
abbrev SqlResult := String × List Value × Option Err

/-- What a routine writing to the buffer returns: the buffer, the arguments, the error. -/
abbrev WriteResult := String × List Value × Option Err

/-! ## Placeholder formats -/

/-- The `PlaceholderFormat` interface: its one method `ReplacePlaceholders`, which takes the
assembled text and returns `(text, err)`. -/
structure PlaceholderFormat where
  ReplacePlaceholders : String → String × Option Err

/-- Decimal digits of a number, as `fmt` prints `%d`. -/
def decimal (n : Nat) : List Char := Nat.toDigits 10 n

/-- Left-to-right scan of the ordinal rewriter; `i` is the number of markers already
numbered. A doubled marker is kept as it stands and takes no number. -/
def replacePositional (mark : List Char) : Nat → List Char → List Char
  | _, [] => []
  | i, [c] => if c = '?' then mark ++ decimal (i + 1) else [c]
  | i, c :: d :: rest =>
    if c = '?' then
      if d = '?' then '?' :: '?' :: replacePositional mark i rest
      else mark ++ decimal (i + 1) ++ replacePositional mark (i + 1) (d :: rest)
    else c :: replacePositional mark i (d :: rest)

/-- Modelled from the spec: the identity dialect `Question` (its `ReplacePlaceholders` is not
in the sources at hand); spec 4.5: "the identity dialect (marker passed through unchanged)". -/
def Question : PlaceholderFormat := ⟨fun sql => (sql, none)⟩

/-- Modelled from the spec: the ordinal dialect `Dollar` (its `ReplacePlaceholders` is not in
the sources at hand); spec 4.5: every unescaped marker becomes `$1`, `$2`, ... numbered left
to right, all other text is left untouched, and a doubled marker is an escaped literal that
takes no argument slot. -/
def Dollar : PlaceholderFormat :=
  ⟨fun sql => (String.mk (replacePositional ['$'] 0 sql.data), none)⟩

/-! ## Runners -/

/-- The bound runner (`BaseRunner`), known by which optional interfaces it satisfies
(the type assertions of merge.go l.52 and merge_ctx.go l.17, l.28, l.39, l.41). -/
structure BaseRunner where
  isQueryRower : Bool
  isExecerContext : Bool
  isQueryerContext : Bool
  isQueryRowerContext : Bool
  deriving DecidableEq, Repr

/-! ## The snapshot -/

/-- The struct `mergeData` of merge.go l.20-32; `Select` is the pointer `*SelectBuilder`,
`none` for `nil`, the select builder being known by what its `ToSql` returns.

The snapshot also records how the builder holds its two list fields that `SetMap` stores:
`ColumnsBySet` and `ValuesBySet` tell that the field was last stored as a plain value by
`builder.Set` (merge.go l.318-319) and not as a builder list. The render does not read
them; `builder.Extend` and `builder.Append` do. -/
structure mergeData where
  PlaceholderFormat : PlaceholderFormat
  RunWith : Option BaseRunner
  Prefixes : List Sqlizer
  Into : String
  ValuesAlias : String
  On : String
  When : List String
  Columns : List String
  Values : List (List Value)
  Suffixes : List Sqlizer
  Select : Option Sqlizer
  ColumnsBySet : Bool := false
  ValuesBySet : Bool := false

/-! ## Library routines -/

/-- The list to which `builder.Extend` and `builder.Append` (package `lann/builder`) add
their items: the list the builder holds, or, as that package documents, an empty list when
the field "was previously unset or set with Set". -/
@[simp]
def builderList {α : Type} (storedBySet : Bool) (held : List α) : List α :=
  if storedBySet then [] else held

/-- Go `strings.Join(elems, sep)`. -/
def join (sep : String) : List String → String
  | [] => ""
  | [x] => x
  | x :: y :: rest => x ++ sep ++ join sep (y :: rest)

/-- Loop of `appendToSql`: `first` tells whether no part has been written yet. -/
def appendToSqlLoop (sep : String) : List Sqlizer → Bool → String → List Value → WriteResult
  | [], _, w, args => (w, args, none)
  | p :: ps, first, w, args =>
    match p.err with
    | some e => (w, [], some e)
    | none =>
      appendToSqlLoop sep ps false ((if first then w else w ++ sep) ++ p.sql) (args ++ p.args)

/-- Modelled from the spec: `appendToSql(parts, w, sep, args)` (called at merge.go l.72 and
l.122, not in the sources at hand); spec 4.3 steps 2 and 11: the fragments are rendered in
order and written joined by `sep`, their arguments are appended in order, and the first
fragment error is handed back unchanged with no arguments. -/
def appendToSql (parts : List Sqlizer) (w : String) (sep : String) (args : List Value) :
    WriteResult :=
  appendToSqlLoop sep parts true w args

/-! ## Rendering (merge.go l.59-186) -/

/-- Body of the inner loop of `appendValuesToSQL` (merge.go l.143-162) for one cell: the
`Typed` unwrapping, the `Sqlizer` assertion and the cast suffix. Returns the cell text, the
arguments and the error. -/
def renderCell (val : Value) (args : List Value) : String × List Value × Option Err :=
  let unwrapped : String × Value :=
    match val with
    | Value.typed ty v => (ty, v)
    | v => ("", v)
  let valueType := unwrapped.1
  let val := unwrapped.2
  match val.asSqlizer with
  | some vs =>
    match vs.err with
    | some e => ("", [], some e)
    | none =>
      (if valueType ≠ "" then vs.sql ++ "::" ++ valueType else vs.sql, args ++ vs.args, none)
  | none =>
    (if valueType ≠ "" then "?" ++ "::" ++ valueType else "?", args ++ [val], none)

/-- Inner loop of `appendValuesToSQL` (merge.go l.142-163) over the cells of one row;
`valueStrings` holds the cell texts written so far. -/
def renderRow : List Value → List String → List Value → List String × List Value × Option Err
  | [], valueStrings, args => (valueStrings, args, none)
  | val :: row, valueStrings, args =>
    match renderCell val args with
    | (_, _, some e) => (valueStrings, [], some e)
    | (s, args1, none) => renderRow row (valueStrings ++ [s]) args1

/-- Outer loop of `appendValuesToSQL` (merge.go l.140-165) over the rows; `valuesStrings`
holds the row texts written so far. -/
def renderRows :
    List (List Value) → List String → List Value → List String × List Value × Option Err
  | [], valuesStrings, args => (valuesStrings, args, none)
  | row :: rows, valuesStrings, args =>
    match renderRow row [] args with
    | (_, _, some e) => (valuesStrings, [], some e)
    | (valueStrings, args1, none) =>
      renderRows rows (valuesStrings ++ ["(" ++ join "," valueStrings ++ ")"]) args1

/-- The method `appendValuesToSQL` (merge.go l.132-170). -/
def mergeData.appendValuesToSQL (d : mergeData) (w : String) (args : List Value) :
    WriteResult :=
  if d.Values.length = 0 then
    (w, args, some (Err.other "values for insert statements are not set"))
  else
    let w1 := w ++ "VALUES "
    match renderRows d.Values [] args with
    | (_, _, some e) => (w1, [], some e)
    | (valuesStrings, args1, none) => (w1 ++ join "," valuesStrings, args1, none)

/-- The method `appendSelectToSQL` (merge.go l.172-186). -/
def mergeData.appendSelectToSQL (d : mergeData) (w : String) (args : List Value) :
    WriteResult :=
  match d.Select with
  | none => (w, args, some (Err.other "select clause for insert statements are not set"))
  | some sel =>
    match sel.err with
    | some e => (w, args, some e)
    | none => (w ++ sel.sql, args ++ sel.args, none)

/-- First part of `ToSql` (merge.go l.71-78): the prefixes and the space after them. -/
def mergeData.writePrefixes (d : mergeData) (w : String) (args : List Value) : WriteResult :=
  if d.Prefixes.length > 0 then
    match appendToSql d.Prefixes w " " args with
    | (w1, args1, some e) => (w1, args1, some e)
    | (w1, args1, none) => (w1 ++ " ", args1, none)
  else (w, args, none)

/-- The source of `ToSql` (merge.go l.86-94): the opening bracket and the sub-select or
the value rows. -/
def mergeData.writeSource (d : mergeData) (w : String) (args : List Value) : WriteResult :=
  let w1 := w ++ "("
  match d.Select with
  | some _ => d.appendSelectToSQL w1 args
  | none => d.appendValuesToSQL w1 args

/-- The clauses of `ToSql` between the source and the suffixes (merge.go l.96-118). -/
def mergeData.writeClauses (d : mergeData) (w : String) : String :=
  let w1 := w ++ ")"
  let w2 := if d.ValuesAlias ≠ "" then w1 ++ " AS " ++ d.ValuesAlias ++ " " else w1
  let w3 := if d.Columns.length > 0 then w2 ++ "(" ++ join "," d.Columns ++ ")" else w2
  let w4 := if d.On ≠ "" then w3 ++ " ON " ++ d.On else w3
  if d.When.length > 0 then w4 ++ " WHEN " ++ join " WHEN " d.When else w4

/-- Last writing part of `ToSql` (merge.go l.120-126): the space and the suffixes. -/
def mergeData.writeSuffixes (d : mergeData) (w : String) (args : List Value) : WriteResult :=
  if d.Suffixes.length > 0 then appendToSql d.Suffixes (w ++ " ") " " args
  else (w, args, none)

/-- The method `mergeData.ToSql` (merge.go l.59-130). On an early `return` the named results
hold the zero text, the arguments assigned so far and the error. -/
def mergeData.ToSql (d : mergeData) : SqlResult :=
  if d.Into.length = 0 then ("", [], some Err.ErrNoTable)
  else if d.Values.length = 0 ∧ d.Select.isNone then ("", [], some Err.ErrNoValues)
  else
    match d.writePrefixes "" [] with
    | (_, args1, some e) => ("", args1, some e)
    | (w1, args1, none) =>
      let w2 := w1 ++ "MERGE INTO " ++ d.Into ++ " " ++ "USING "
      match d.writeSource w2 args1 with
      | (_, args2, some e) => ("", args2, some e)
      | (w3, args2, none) =>
        match d.writeSuffixes (d.writeClauses w3) args2 with
        | (_, args3, some e) => ("", args3, some e)
        | (w4, args3, none) =>
          let r := d.PlaceholderFormat.ReplacePlaceholders w4
          (r.1, args3, r.2)

/-! ## Running (merge.go l.34-57, merge_ctx.go l.13-47) -/

/-- What reaches the bound runner: the method called on it with the statement text and the
arguments. What the runner does with it lies outside the package. -/
inductive RunnerCall where
  | Exec (query : String) (args : List Value)
  | Query (query : String) (args : List Value)
  | QueryRow (query : String) (args : List Value)
  | ExecContext (query : String) (args : List Value)
  | QueryContext (query : String) (args : List Value)
  | QueryRowContext (query : String) (args : List Value)

/-- The statement text of a call. -/
def RunnerCall.query : RunnerCall → String
  | RunnerCall.Exec q _ => q
  | RunnerCall.Query q _ => q
  | RunnerCall.QueryRow q _ => q
  | RunnerCall.ExecContext q _ => q
  | RunnerCall.QueryContext q _ => q
  | RunnerCall.QueryRowContext q _ => q

/-- Modelled from the spec: the helpers `ExecWith`, `QueryWith`, `QueryRowWith`,
`ExecContextWith`, `QueryContextWith` and `QueryRowContextWith` (called at merge.go l.38,
l.45, l.56 and merge_ctx.go l.21, l.32, l.46, not in the sources at hand); spec 2 and 7:
the statement is rendered, the rendered text and arguments are handed to the runner, and
"a failed render or execute always surfaces to the caller with no partial side effect".
`call` is the runner method reached. -/
def runWith (call : String → List Value → RunnerCall) (s : mergeData) :
    Except Err RunnerCall :=
  match s.ToSql with
  | (_, _, some e) => Except.error e
  | (query, args, none) => Except.ok (call query args)

/-- The method `mergeData.Exec` (merge.go l.34-39). -/
def mergeData.Exec (d : mergeData) : Except Err RunnerCall :=
  match d.RunWith with
  | none => Except.error Err.RunnerNotSet
  | some _ => runWith RunnerCall.Exec d

/-- The method `mergeData.Query` (merge.go l.41-46). -/
def mergeData.Query (d : mergeData) : Except Err RunnerCall :=
  match d.RunWith with
  | none => Except.error Err.RunnerNotSet
  | some _ => runWith RunnerCall.Query d

/-- The method `mergeData.QueryRow` (merge.go l.48-57); the error is the one held by the
returned `Row`. -/
def mergeData.QueryRow (d : mergeData) : Except Err RunnerCall :=
  match d.RunWith with
  | none => Except.error Err.RunnerNotSet
  | some r =>
    if r.isQueryRower then runWith RunnerCall.QueryRow d
    else Except.error Err.RunnerNotQueryRunner

/-- The method `mergeData.ExecContext` (merge_ctx.go l.13-22). -/
def mergeData.ExecContext (d : mergeData) : Except Err RunnerCall :=
  match d.RunWith with
  | none => Except.error Err.RunnerNotSet
  | some r =>
    if r.isExecerContext then runWith RunnerCall.ExecContext d
    else Except.error Err.NoContextSupport

/-- The method `mergeData.QueryContext` (merge_ctx.go l.24-33). -/
def mergeData.QueryContext (d : mergeData) : Except Err RunnerCall :=
  match d.RunWith with
  | none => Except.error Err.RunnerNotSet
  | some r =>
    if r.isQueryerContext then runWith RunnerCall.QueryContext d
    else Except.error Err.NoContextSupport

/-- The method `mergeData.QueryRowContext` (merge_ctx.go l.35-47); the error is the one held
by the returned `Row`. -/
def mergeData.QueryRowContext (d : mergeData) : Except Err RunnerCall :=
  match d.RunWith with
  | none => Except.error Err.RunnerNotSet
  | some r =>
    if r.isQueryRowerContext then runWith RunnerCall.QueryRowContext d
    else if ¬ r.isQueryerContext then Except.error Err.RunnerNotQueryRunner
    else Except.error Err.NoContextSupport

/-- The runner of the tests, `DBStub`, which satisfies every runner interface. -/
def DBStub : BaseRunner := ⟨true, true, true, true⟩

/-! ## Construction (the fluent calls of merge.go used by the tests) -/

/-- Modelled from the spec: the constructor `Merge(into)` (not in the sources at hand);
spec 3, Lifecycle: a snapshot "is created by the initial constructor call (binding
`targetTable`)", every other field empty and the statement rendered with the identity
dialect by default. -/
def Merge (into : String) : mergeData :=
  { PlaceholderFormat := Question, RunWith := none, Prefixes := [], Into := into,
    ValuesAlias := "", On := "", When := [], Columns := [], Values := [], Suffixes := [],
    Select := none }

/-- Modelled from the spec: `Expr(sql, args...)` (not in the sources at hand); spec 2: the
"raw-text-with-bound-values fragment", which renders to its text and its bound values. -/
def Expr (sql : String) (args : List Value) : Sqlizer := ⟨sql, args, none⟩

/-- Call `MergeBuilder.PlaceholderFormat` (merge.go l.201-203): `builder.Set`. -/
def mergeData.setPlaceholderFormat (b : mergeData) (f : Squirrel.PlaceholderFormat) :
    mergeData :=
  { b with PlaceholderFormat := f }

/-- Call `MergeBuilder.RunWith` (merge.go l.208-210). -/
def mergeData.setRunWith (b : mergeData) (runner : BaseRunner) : mergeData :=
  { b with RunWith := some runner }

/-- Call `MergeBuilder.PrefixExpr` (merge.go l.259-261): `builder.Append`. -/
def mergeData.PrefixExpr (b : mergeData) (expr : Sqlizer) : mergeData :=
  { b with Prefixes := b.Prefixes ++ [expr] }

/-- Call `MergeBuilder.Prefix` (merge.go l.254-256). -/
def mergeData.addPrefix (b : mergeData) (sql : String) (args : List Value) : mergeData :=
  b.PrefixExpr (Expr sql args)

/-- Call `MergeBuilder.ValuesAlias` (merge.go l.269-271): `builder.Set`. -/
def mergeData.setValuesAlias (b : mergeData) (valuesAlias : String) : mergeData :=
  { b with ValuesAlias := valuesAlias }

/-- Call `MergeBuilder.On` (merge.go l.274-276): `builder.Set`. -/
def mergeData.setOn (b : mergeData) (cond : String) : mergeData :=
  { b with On := cond }

/-- Call `MergeBuilder.When` (merge.go l.279-281): `builder.Append`. -/
def mergeData.addWhen (b : mergeData) (clause : String) : mergeData :=
  { b with When := b.When ++ [clause] }

/-- Call `MergeBuilder.Columns` (merge.go l.284-286): `builder.Extend`, which adds the
columns to the builder list of the field and stores that list. -/
def mergeData.addColumns (b : mergeData) (columns : List String) : mergeData :=
  { b with Columns := builderList b.ColumnsBySet b.Columns ++ columns, ColumnsBySet := false }

/-- Call `MergeBuilder.Values` (merge.go l.289-291): `builder.Append` of one row, which adds
the row to the builder list of the field and stores that list. -/
def mergeData.addValues (b : mergeData) (values : List Value) : mergeData :=
  { b with Values := builderList b.ValuesBySet b.Values ++ [values], ValuesBySet := false }

/-- Call `MergeBuilder.SuffixExpr` (merge.go l.299-301): `builder.Append`. -/
def mergeData.SuffixExpr (b : mergeData) (expr : Sqlizer) : mergeData :=
  { b with Suffixes := b.Suffixes ++ [expr] }

/-- Call `MergeBuilder.Suffix` (merge.go l.294-296). -/
def mergeData.addSuffix (b : mergeData) (sql : String) (args : List Value) : mergeData :=
  b.SuffixExpr (Expr sql args)

/-- Call `MergeBuilder.Select` (merge.go l.326-328): `builder.Set` of the pointer. -/
def mergeData.setSelect (b : mergeData) (sb : Sqlizer) : mergeData :=
  { b with Select := some sb }

end Squirrel

namespace Squirrel

/-! ## The rendering read as text: the functions the statements below compare `ToSql` with -/

/-- Error with which a cell fails to render: the error of the nested fragment, if the cell
(after at most one `Typed` unwrapping) is a fragment. -/
def cellErr : Value → Option Err
  | Value.typed _ (Value.sqlizer _ _ e) => e
  | Value.sqlizer _ _ e => e
  | _ => none

/-- Text of a cell: the nested fragment's text or the marker, then the cast of a `Typed`
wrapper whose type name is not empty. -/
def cellText : Value → String
  | Value.typed ty (Value.sqlizer sql _ _) => if ty ≠ "" then sql ++ "::" ++ ty else sql
  | Value.typed ty _ => if ty ≠ "" then "?" ++ "::" ++ ty else "?"
  | Value.sqlizer sql _ _ => sql
  | _ => "?"

/-- Arguments of a cell: the nested fragment's arguments, or the scalar itself; a `Typed`
wrapper gives those of the value it wraps. -/
def cellArgs : Value → List Value
  | Value.typed _ (Value.sqlizer _ args _) => args
  | Value.typed _ v => [v]
  | Value.sqlizer _ args _ => args
  | v => [v]

/-- Arguments of a row: those of its cells, in order. -/
def rowArgs : List Value → List Value
  | [] => []
  | c :: row => cellArgs c ++ rowArgs row

/-- Arguments of the rows, row-major. -/
def rowsArgs : List (List Value) → List Value
  | [] => []
  | row :: rows => rowArgs row ++ rowsArgs rows

/-- Text of a row: its cells joined by `,` in brackets. -/
def rowText (row : List Value) : String := "(" ++ join "," (row.map cellText) ++ ")"

/-- Text of the rows: the rows joined by `,`. -/
def rowsText (rows : List (List Value)) : String := join "," (rows.map rowText)

/-- Arguments of a list of fragments, in order. -/
def partsArgs : List Sqlizer → List Value
  | [] => []
  | p :: ps => p.args ++ partsArgs ps

/-- Text of a list of fragments joined by one space. -/
def partsText (ps : List Sqlizer) : String := join " " (ps.map Sqlizer.sql)

/-- Text of the `USING` source: the sub-select's text if one is set, else the value rows. -/
def sourceText (d : mergeData) : String :=
  match d.Select with
  | some sel => sel.sql
  | none => "VALUES " ++ rowsText d.Values

/-- Arguments of the `USING` source. -/
def sourceArgs (d : mergeData) : List Value :=
  match d.Select with
  | some sel => sel.args
  | none => rowsArgs d.Values

/-- Every nested fragment of the source renders without error. -/
def sourceOk (d : mergeData) : Prop :=
  match d.Select with
  | some sel => sel.err = none
  | none => ∀ row ∈ d.Values, ∀ c ∈ row, cellErr c = none

/-- Text of the statement before the placeholder rewrite, clause by clause. -/
def statementText (d : mergeData) : String :=
  (if d.Prefixes.length > 0 then partsText d.Prefixes ++ " " else "")
    ++ "MERGE INTO " ++ d.Into ++ " USING (" ++ sourceText d ++ ")"
    ++ (if d.ValuesAlias ≠ "" then " AS " ++ d.ValuesAlias ++ " " else "")
    ++ (if d.Columns.length > 0 then "(" ++ join "," d.Columns ++ ")" else "")
    ++ (if d.On ≠ "" then " ON " ++ d.On else "")
    ++ (if d.When.length > 0 then " WHEN " ++ join " WHEN " d.When else "")
    ++ (if d.Suffixes.length > 0 then " " ++ partsText d.Suffixes else "")

/-- Arguments of the statement: prefixes, source, suffixes. -/
def statementArgs (d : mergeData) : List Value :=
  partsArgs d.Prefixes ++ sourceArgs d ++ partsArgs d.Suffixes

/-- Every element written with the separator before it. -/
def sepAll (sep : String) : List String → String
  | [] => ""
  | x :: rest => sep ++ x ++ sepAll sep rest

/-- The snapshot passes the two checks at the head of `ToSql` and every nested fragment
renders without error. -/
def renders (d : mergeData) : Prop :=
  d.Into ≠ "" ∧ (d.Values.length ≠ 0 ∨ d.Select.isSome) ∧
    (∀ p ∈ d.Prefixes, p.err = none) ∧ sourceOk d ∧ (∀ p ∈ d.Suffixes, p.err = none)

/-! ## The snapshots of the tests -/

/-- The builder of `TestMergeBuilderToSql` (merge_test.go l.10-18). -/
def testToSqlBuilder : mergeData :=
  ((((((((Merge "a").addPrefix "WITH prefix AS ?" [Value.int 0]).addValues
    [Value.int 1, Value.int 2]).setValuesAlias "vals").addColumns ["b", "c"]).setOn
    "a.b = vals.b AND a.c = vals.c").addWhen
    "MATCHED THEN UPDATE SET b = vals.b, c = vals.c").addWhen
    "NOT MATCHED THEN INSERT (b, c) VALUES (vals.b, vals.c)").addSuffix "RETURNING a.b" []

/-- The text expected by `TestMergeBuilderToSql` (merge_test.go l.23-26). -/
def testToSqlExpected : String :=
  "WITH prefix AS ? MERGE INTO a USING (VALUES (?,?)) AS vals (b,c) ON a.b = vals.b AND a.c = vals.c " ++
    "WHEN MATCHED THEN UPDATE SET b = vals.b, c = vals.c " ++
    "WHEN NOT MATCHED THEN INSERT (b, c) VALUES (vals.b, vals.c) RETURNING a.b"

/-- A fragment whose render fails. -/
def failingExpr (msg : String) : Sqlizer := ⟨"", [], some (Err.other msg)⟩

/-- A merge builder used as a fragment: `MergeBuilder` has the method `ToSql`
(merge.go l.238-241), so it is a `Sqlizer`, known by what that method returns. -/
def mergeData.asSqlizer (d : mergeData) : Sqlizer := ⟨d.ToSql.1, d.ToSql.2.1, d.ToSql.2.2⟩

/-- The builder `Merge("x").Values(Merge("y"))`: one row whose cell is a merge builder
that has no values of its own. -/
def nestedNoValuesBuilder : mergeData :=
  (Merge "x").addValues [(Merge "y").asSqlizer.toValue]

/-- A plain scalar: neither a fragment nor a `Typed` wrapper. -/
def isPlainScalar : Value → Bool
  | Value.nil => true
  | Value.int _ => true
  | Value.str _ => true
  | _ => false

/-- The builder `Merge("test").Values(1).RunWith(db)` of `TestMergeBuilderRunners` and
`TestMergeBuilderContextRunners`. -/
def testRunnersBuilder : mergeData :=
  ((Merge "test").addValues [Value.int 1]).setRunWith DBStub

/-! ## Placeholder markers in a text -/

/-- Number of unescaped placeholder markers `?` in a text, scanning left to right; a doubled
marker `??` is an escaped literal and is not counted. -/
def countMarkers : List Char → Nat
  | [] => 0
  | [c] => if c = '?' then 1 else 0
  | c :: d :: rest =>
    if c = '?' then
      if d = '?' then countMarkers rest else 1 + countMarkers (d :: rest)
    else countMarkers (d :: rest)

/-- Number of unescaped placeholder markers of a string. -/
def markers (s : String) : Nat := countMarkers s.data

/-- The string holds no `?` at all. -/
def noMarker (s : String) : Prop := '?' ∉ s.data

instance noMarkerDecidable (s : String) : Decidable (noMarker s) :=
  inferInstanceAs (Decidable ('?' ∉ s.data))

/-- The string does not start with `?`. -/
def startsClean (s : String) : Prop := s.data.head? ≠ some '?'

instance startsCleanDecidable (s : String) : Decidable (startsClean s) :=
  inferInstanceAs (Decidable (s.data.head? ≠ some '?'))

/-- The fragment carries as many unescaped markers in its text as arguments. -/
def balanced (s : Sqlizer) : Prop := markers s.sql = s.args.length

instance balancedDecidable (s : Sqlizer) : Decidable (balanced s) :=
  inferInstanceAs (Decidable (markers s.sql = s.args.length))

/-- Type name of a `Typed` cell, empty for any other cell (merge.go l.143-148). -/
def cellType : Value → String
  | Value.typed ty _ => ty
  | _ => ""

/-- The nested fragment of a cell, after the `Typed` unwrapping (merge.go l.144-149). -/
def cellFragment : Value → Option Sqlizer
  | Value.typed _ v => v.asSqlizer
  | v => v.asSqlizer

/-- The builder `Merge("t?").Values(1)`: a table name that holds a `?`. -/
def markerInTableBuilder : mergeData := (Merge "t?").addValues [Value.int 1]

/-! ## `SetMap` and `Select` (merge.go l.303-328) -/

/-- Go comparison `a <= b` of two strings, character by character; the order of the UTF-8
bytes Go compares is the order of the code points. -/
def lexLe : List Char → List Char → Bool
  | [], _ => true
  | _ :: _, [] => false
  | c :: cs, d :: ds => if c < d then true else if d < c then false else lexLe cs ds

/-- Go `a <= b` on strings. -/
def stringLe (a b : String) : Prop := lexLe a.data b.data = true

instance stringLeDecidable : DecidableRel stringLe := fun a b =>
  inferInstanceAs (Decidable (lexLe a.data b.data = true))

/-- Go `a < b` on strings. -/
def stringLt (a b : String) : Prop := stringLe a b ∧ a ≠ b

/-- Go `sort.Strings`: the strings in ascending order. -/
def sortStrings (l : List String) : List String := l.insertionSort stringLe

/-- Go map index `clauses[col]` on a map given by its entries in iteration order; a missing
key gives `nil`. -/
def mapIndex : List (String × Value) → String → Value
  | [], _ => Value.nil
  | (k, v) :: rest, col => if k = col then v else mapIndex rest col

/-- Call `MergeBuilder.SetMap` (merge.go l.305-322); `clauses` lists the entries of the Go map
in the order in which `range` visits them. The two `builder.Set` calls store the fields as
plain values. -/
def mergeData.SetMap (b : mergeData) (clauses : List (String × Value)) : mergeData :=
  let cols := sortStrings (clauses.map Prod.fst)
  let vals := cols.map (mapIndex clauses)
  let b1 : mergeData := { b with Columns := cols, ColumnsBySet := true }
  { b1 with Values := [vals], ValuesBySet := true }

/-- The map of `TestMergeBuilderSetMap` (merge_test.go l.78), visited in some order. -/
def testSetMapClauses : List (String × Value) :=
  [("field2", Value.int 2), ("field3", Value.int 3), ("field1", Value.int 1)]

/-- The select builder of `TestMergeBuilderSelect` (merge_test.go l.91), known by the render
the test expects of it. -/
def testSelect : Sqlizer := ⟨"SELECT field1 FROM table1 WHERE field1 = ?", [Value.int 1], none⟩

/-- The builder of `TestMergeBuilderSelect` (merge_test.go l.92). -/
def testSelectBuilder : mergeData :=
  ((((Merge "table2").setValuesAlias "vals").setOn "table2.field1 = vals.field1").addColumns
    ["field1"]).setSelect testSelect

/-! ## The fields of the snapshot and the remaining calls -/

/-- Call `MergeBuilder.Into` (merge.go l.264-266): `builder.Set`. -/
def mergeData.setInto (b : mergeData) (into : String) : mergeData :=
  { b with Into := into }

/-- The fields of `mergeData` (merge.go l.20-32). -/
inductive Field where
  | PlaceholderFormat
  | RunWith
  | Prefixes
  | Into
  | ValuesAlias
  | On
  | When
  | Columns
  | Values
  | Suffixes
  | Select
  deriving DecidableEq, Repr

/-- The two snapshots hold the same value in every field that is not listed in `fs`. -/
def sameOutside (fs : List Field) (a b : mergeData) : Prop :=
  (Field.PlaceholderFormat ∈ fs ∨ a.PlaceholderFormat = b.PlaceholderFormat) ∧
  (Field.RunWith ∈ fs ∨ a.RunWith = b.RunWith) ∧
  (Field.Prefixes ∈ fs ∨ a.Prefixes = b.Prefixes) ∧
  (Field.Into ∈ fs ∨ a.Into = b.Into) ∧
  (Field.ValuesAlias ∈ fs ∨ a.ValuesAlias = b.ValuesAlias) ∧
  (Field.On ∈ fs ∨ a.On = b.On) ∧
  (Field.When ∈ fs ∨ a.When = b.When) ∧
  (Field.Columns ∈ fs ∨ a.Columns = b.Columns) ∧
  (Field.Values ∈ fs ∨ a.Values = b.Values) ∧
  (Field.Suffixes ∈ fs ∨ a.Suffixes = b.Suffixes) ∧
  (Field.Select ∈ fs ∨ a.Select = b.Select)

/-! ## The value cells as the specification words them -/

/-- Text of an unwrapped value as the specification words it: the fragment's own text for
a nested fragment, the marker `?` for anything else. -/
def specUnwrappedText : Value → String
  | Value.sqlizer sql _ _ => sql
  | _ => "?"

/-- Text of a cell as the specification words it: for a `Typed` wrapper with type name `T`
the rendering of the unwrapped value followed by `::T`, else the rendering of the value. -/
def specCellText : Value → String
  | Value.typed ty v => specUnwrappedText v ++ "::" ++ ty
  | v => specUnwrappedText v

/-- Text of the rows as the specification words it: the rows joined by `,`, each row its
cells joined by `,` in brackets. -/
def specRowsText (rows : List (List Value)) : String :=
  join "," (rows.map (fun row => "(" ++ join "," (row.map specCellText) ++ ")"))

/-- The builder `Merge("t").Values(Typed{Type: "", Value: 1})`: a `Typed` cell whose type
name is empty. -/
def emptyTypeBuilder : mergeData := (Merge "t").addValues [Value.typed "" (Value.int 1)]

/-- The builder `Merge("t").Values(1, Typed{"int", 2}).Values(frag)` where the fragment
`frag` renders to `now()`. -/
def typedRowsBuilder : mergeData :=
  ((Merge "t").addValues [Value.int 1, Value.typed "int" (Value.int 2)]).addValues
    [(Expr "now()" []).toValue]

/-- The builder `Merge("t").Prefix("WITH p AS ?", 0).Select(sb)` where the render of `sb`
fails, as that of a select builder without columns does. -/
def failingSelectBuilder : mergeData :=
  ((Merge "t").addPrefix "WITH p AS ?" [Value.int 0]).setSelect
    (failingExpr "select statements must have at least one result column")

/-- The builder `Merge("t").Prefix("WITH p AS ?", 0).Values(1, frag)` where the render of
the fragment `frag` fails. -/
def failingCellBuilder : mergeData :=
  ((Merge "t").addPrefix "WITH p AS ?" [Value.int 0]).addValues
    [Value.int 1, (failingExpr "boom").toValue]

/-! ## Scanning and the panicking render -/

/-- Modelled from the spec: `Row.Scan` (the type `Row` is not in the sources at hand);
spec 6: the row scanner "lazily surfaces" the error it holds on `Scan`, and otherwise the
scan is that of the row the runner returned. The method `MergeBuilder.Scan`
(merge.go l.231-233) is `QueryRow().Scan`. -/
def mergeData.Scan (d : mergeData) : Except Err RunnerCall := d.QueryRow

/-- The method `MergeBuilder.ScanContext` (merge_ctx.go l.68-70): `QueryRowContext().Scan`,
with `Row.Scan` as in `mergeData.Scan`. -/
def mergeData.ScanContext (d : mergeData) : Except Err RunnerCall := d.QueryRowContext

/-- The method `MergeBuilder.MustSql` (merge.go l.245-251); `Except.error e` stands for
`panic(e)`. -/
def mergeData.MustSql (b : mergeData) : Except Err (String × List Value) :=
  match b.ToSql with
  | (_, _, some e) => Except.error e
  | (sql, args, none) => Except.ok (sql, args)

/-- A runner that satisfies none of the optional interfaces. -/
def plainRunner : BaseRunner := ⟨false, false, false, false⟩

/-! ## The `WHEN` section as the specification words it -/

/-- The `WHEN` section as the specification words it: ` WHEN ` followed by the clause
bodies joined with the separator `WHEN `. -/
def specWhenSection (whens : List String) : String := " WHEN " ++ join "WHEN " whens

/-- The snapshot without its `WHEN` clauses and suffixes: what is rendered before the
`WHEN` section. -/
def mergeData.beforeWhen (d : mergeData) : mergeData :=
  { d with When := [], Suffixes := [] }

/-- A builder with two calls each of `Values`, `When`, `Prefix` and `Suffix`. -/
def chainedBuilder : mergeData :=
  ((((((((Merge "t").addValues [Value.int 1]).addValues [Value.int 2]).addWhen "A").addWhen
    "B").addPrefix "P1" []).addPrefix "P2 ?" [Value.int 0]).addSuffix "S1" []).addSuffix
    "S2" []

/-! ## Spaces in a text -/

/-- The text holds two consecutive spaces. -/
def hasDoubleSpace : List Char → Bool
  | [] => false
  | [_] => false
  | c :: d :: rest => (c == ' ' && d == ' ') || hasDoubleSpace (d :: rest)

/-- The string ends with a space. -/
def endsWithSpace (s : String) : Prop := s.data.getLast? = some ' '

instance endsWithSpaceDecidable (s : String) : Decidable (endsWithSpace s) :=
  inferInstanceAs (Decidable (s.data.getLast? = some ' '))

/-- The string does not start with a space, does not end with a space and holds no two
consecutive spaces. -/
def tidy (s : String) : Prop :=
  s.data.head? ≠ some ' ' ∧ s.data.getLast? ≠ some ' ' ∧ hasDoubleSpace s.data = false

instance tidyDecidable (s : String) : Decidable (tidy s) :=
  inferInstanceAs (Decidable (_ ∧ _ ∧ _))

/-- A piece of text that is empty or is one space followed by a non-empty tidy string. -/
def spaceLed (r : String) : Prop := r = "" ∨ ∃ u, r = " " ++ u ∧ tidy u ∧ u ≠ ""

/-- The strings supplied by the caller are tidy: the table, the alias, the columns, the
`ON` condition, the `WHEN` clauses, the texts of the prefixes and suffixes (none of these
two empty), the text of the sub-select and the texts of the cells. -/
def callerTidy (d : mergeData) : Prop :=
  tidy d.Into ∧ tidy d.ValuesAlias ∧ (∀ c ∈ d.Columns, tidy c) ∧ tidy d.On ∧
    (∀ w ∈ d.When, w ≠ "" ∧ tidy w) ∧
    (∀ p ∈ d.Prefixes, p.sql ≠ "" ∧ tidy p.sql) ∧
    (∀ p ∈ d.Suffixes, p.sql ≠ "" ∧ tidy p.sql) ∧
    (∀ s, d.Select = some s → tidy s.sql) ∧
    (∀ row ∈ d.Values, ∀ c ∈ row, tidy (cellText c))

/-- The snapshot without its prefixes. -/
def mergeData.withoutPrefixes (d : mergeData) : mergeData := { d with Prefixes := [] }

/-- The snapshot without its suffixes. -/
def mergeData.withoutSuffixes (d : mergeData) : mergeData := { d with Suffixes := [] }

/-- The builder `Merge("t").Values(1).ValuesAlias("vals")`: an alias and no columns. -/
def aliasOnlyBuilder : mergeData := ((Merge "t").addValues [Value.int 1]).setValuesAlias "vals"

/-- The builder `Merge("t").Values(1).ValuesAlias("vals").On("x")`. -/
def aliasOnBuilder : mergeData := aliasOnlyBuilder.setOn "x"

/-- The builder `Merge("t").Values(1).ValuesAlias("vals").Suffix("RETURNING x")`. -/
def aliasSuffixBuilder : mergeData := aliasOnlyBuilder.addSuffix "RETURNING x" []

/-- The builder `Merge("t").SetMap({a: 1}).Values(2)`. -/
def setMapValuesBuilder : mergeData :=
  ((Merge "t").SetMap [("a", Value.int 1)]).addValues [Value.int 2]

/-- The builder `Merge("t").SetMap({a: 1}).Columns("b")`. -/
def setMapColumnsBuilder : mergeData :=
  ((Merge "t").SetMap [("a", Value.int 1)]).addColumns ["b"]

/-! ## Binding the markers of a text to arguments -/

/-- A piece of a text whose markers are bound: a character of the text, or the argument
bound to a marker. -/
inductive Bound (α : Type) where
  | char (c : Char)
  | arg (a : α)

/-- Left-to-right scan that binds the Nth unescaped marker `?` of the text to the Nth
argument of the list; a doubled marker `??` is an escaped literal and takes no argument.
Returns the bound text and the arguments left over; a marker for which no argument is left
stays a character. -/
def bindMarkers {α : Type} : List Char → List α → List (Bound α) × List α
  | [], args => ([], args)
  | [c], args =>
    if c = '?' then
      match args with
      | a :: rest => ([Bound.arg a], rest)
      | [] => ([Bound.char c], [])
    else ([Bound.char c], args)
  | c :: d :: rest, args =>
    if c = '?' then
      if d = '?' then
        (Bound.char c :: Bound.char d :: (bindMarkers rest args).1, (bindMarkers rest args).2)
      else
        match args with
        | a :: more =>
          (Bound.arg a :: (bindMarkers (d :: rest) more).1, (bindMarkers (d :: rest) more).2)
        | [] => (Bound.char c :: (bindMarkers (d :: rest) []).1, (bindMarkers (d :: rest) []).2)
    else (Bound.char c :: (bindMarkers (d :: rest) args).1, (bindMarkers (d :: rest) args).2)

/-- A text without bound markers. -/
def rawText {α : Type} (s : String) : List (Bound α) := s.data.map Bound.char

/-- A fragment with its markers bound to its own arguments. -/
def boundFragment (s : Sqlizer) : List (Bound Value) := (bindMarkers s.sql.data s.args).1

/-- Bound texts joined by a separator. -/
def boundJoin {α : Type} (sep : String) : List (List (Bound α)) → List (Bound α)
  | [] => []
  | [x] => x
  | x :: y :: rest => x ++ rawText sep ++ boundJoin sep (y :: rest)

/-- The cast suffix of a cell. -/
def boundCast (ty : String) : List (Bound Value) :=
  if ty ≠ "" then rawText ("::" ++ ty) else []

/-- A cell with its markers bound to its own arguments: the marker of a scalar is bound to
the scalar, the markers of a nested fragment to the fragment's arguments. -/
def boundCell : Value → List (Bound Value)
  | Value.typed ty (Value.sqlizer sql args _) => (bindMarkers sql.data args).1 ++ boundCast ty
  | Value.typed ty v => Bound.arg v :: boundCast ty
  | Value.sqlizer sql args _ => (bindMarkers sql.data args).1
  | v => [Bound.arg v]

/-- A row with the markers of its cells bound to the cells' own arguments. -/
def boundRow (row : List Value) : List (Bound Value) :=
  rawText "(" ++ boundJoin "," (row.map boundCell) ++ rawText ")"

/-- The source with its markers bound: the sub-select to its own arguments, or each cell
of the rows to its own. -/
def boundSource (d : mergeData) : List (Bound Value) :=
  match d.Select with
  | some sel => boundFragment sel
  | none => rawText "VALUES " ++ boundJoin "," (d.Values.map boundRow)

/-- The statement with every marker bound to the argument of the fragment or cell that
wrote it: the text of `statementText` in which each prefix, the source and each suffix
carry their own arguments. -/
def boundStatement (d : mergeData) : List (Bound Value) :=
  (if d.Prefixes.length > 0 then
      boundJoin " " (d.Prefixes.map boundFragment) ++ rawText " " else [])
    ++ rawText "MERGE INTO " ++ rawText d.Into ++ rawText " USING (" ++ boundSource d
    ++ rawText (d.writeClauses "")
    ++ (if d.Suffixes.length > 0 then
          rawText " " ++ boundJoin " " (d.Suffixes.map boundFragment) else [])

/-- The text in which every bound marker is written as the mark followed by the number
bound to it. -/
def ordinalText (mark : List Char) : List (Bound Nat) → List Char
  | [] => []
  | Bound.char c :: rest => c :: ordinalText mark rest
  | Bound.arg k :: rest => mark ++ decimal k ++ ordinalText mark rest

/-- The text `t` with the arguments `xs` binds to `k`, whatever text not starting with a
marker and whatever arguments follow. -/
def Binds {α : Type} (t : List Char) (xs : List α) (k : List (Bound α)) : Prop :=
  ∀ (b : List Char) (ys : List α), b.head? ≠ some '?' →
    bindMarkers (t ++ b) (xs ++ ys) = (k ++ (bindMarkers b ys).1, (bindMarkers b ys).2)

/-- The builder `Merge("t").Prefix("WITH p AS ?").Values(1)`: a prefix with a marker and no
argument. -/
def unboundPrefixBuilder : mergeData :=
  ((Merge "t").addPrefix "WITH p AS ?" []).addValues [Value.int 1]

/-! ## Lemmas on the library routines -/

theorem join_cons (sep x : String) (rest : List String) :
    join sep (x :: rest) = x ++ sepAll sep rest := by
  induction rest generalizing x with
  | nil => simp [join, sepAll]
  | cons y rest ih => simp [join, sepAll, ih, String.append_assoc]

theorem appendToSqlLoop_false (sep : String) (ps : List Sqlizer)
    (h : ∀ p ∈ ps, p.err = none) (w : String) (args : List Value) :
    appendToSqlLoop sep ps false w args
      = (w ++ sepAll sep (ps.map Sqlizer.sql), args ++ partsArgs ps, none) := by
  induction ps generalizing w args with
  | nil => simp [appendToSqlLoop, sepAll, partsArgs]
  | cons p ps ih =>
    have hp : p.err = none := h p (by simp)
    have hps : ∀ q ∈ ps, q.err = none := fun q hq => h q (by simp [hq])
    simp [appendToSqlLoop, hp, ih hps, sepAll, partsArgs, String.append_assoc]

theorem appendToSql_ok (sep : String) (ps : List Sqlizer)
    (h : ∀ p ∈ ps, p.err = none) (w : String) (args : List Value) :
    appendToSql ps w sep args
      = (w ++ join sep (ps.map Sqlizer.sql), args ++ partsArgs ps, none) := by
  cases ps with
  | nil => simp [appendToSql, appendToSqlLoop, join, partsArgs]
  | cons p ps =>
    have hp : p.err = none := h p (by simp)
    have hps : ∀ q ∈ ps, q.err = none := fun q hq => h q (by simp [hq])
    simp [appendToSql, appendToSqlLoop, hp, appendToSqlLoop_false sep ps hps, join_cons,
      partsArgs, String.append_assoc]

/-! ## Lemmas on the value rows -/

theorem renderCell_ok (c : Value) (h : cellErr c = none) (args : List Value) :
    renderCell c args = (cellText c, args ++ cellArgs c, none) := by
  cases c with
  | nil => simp [renderCell, Value.asSqlizer, cellText, cellArgs]
  | int n => simp [renderCell, Value.asSqlizer, cellText, cellArgs]
  | str s => simp [renderCell, Value.asSqlizer, cellText, cellArgs]
  | sqlizer sql a e =>
    simp only [cellErr] at h
    subst h
    simp [renderCell, Value.asSqlizer, cellText, cellArgs]
  | typed ty v =>
    cases v with
    | nil => simp [renderCell, Value.asSqlizer, cellText, cellArgs]
    | int n => simp [renderCell, Value.asSqlizer, cellText, cellArgs]
    | str s => simp [renderCell, Value.asSqlizer, cellText, cellArgs]
    | typed ty2 v2 => simp [renderCell, Value.asSqlizer, cellText, cellArgs]
    | sqlizer sql a e =>
      simp only [cellErr] at h
      subst h
      simp [renderCell, Value.asSqlizer, cellText, cellArgs]

theorem renderRow_ok (row : List Value) (h : ∀ c ∈ row, cellErr c = none)
    (valueStrings : List String) (args : List Value) :
    renderRow row valueStrings args
      = (valueStrings ++ row.map cellText, args ++ rowArgs row, none) := by
  induction row generalizing valueStrings args with
  | nil => simp [renderRow, rowArgs]
  | cons c row ih =>
    have hc : cellErr c = none := h c (by simp)
    have hrow : ∀ x ∈ row, cellErr x = none := fun x hx => h x (by simp [hx])
    simp [renderRow, renderCell_ok c hc, ih hrow, rowArgs]

theorem renderRows_ok (rows : List (List Value))
    (h : ∀ row ∈ rows, ∀ c ∈ row, cellErr c = none)
    (valuesStrings : List String) (args : List Value) :
    renderRows rows valuesStrings args
      = (valuesStrings ++ rows.map rowText, args ++ rowsArgs rows, none) := by
  induction rows generalizing valuesStrings args with
  | nil => simp [renderRows, rowsArgs]
  | cons row rows ih =>
    have hrow : ∀ c ∈ row, cellErr c = none := h row (by simp)
    have hrows : ∀ r ∈ rows, ∀ c ∈ r, cellErr c = none := fun r hr => h r (by simp [hr])
    simp [renderRows, renderRow_ok row hrow, ih hrows, rowsArgs, rowText]

/-! ## Lemmas on the parts of `ToSql` -/

theorem writePrefixes_ok (d : mergeData) (h : ∀ p ∈ d.Prefixes, p.err = none)
    (w : String) (args : List Value) :
    d.writePrefixes w args
      = (w ++ (if d.Prefixes.length > 0 then partsText d.Prefixes ++ " " else ""),
          args ++ partsArgs d.Prefixes, none) := by
  unfold mergeData.writePrefixes
  by_cases hp : d.Prefixes.length > 0
  · simp [hp, appendToSql_ok " " d.Prefixes h, partsText, String.append_assoc]
  · have : d.Prefixes = [] := by
      cases hd : d.Prefixes with
      | nil => rfl
      | cons a l => simp [hd] at hp
    simp [this, partsArgs]

theorem writeSuffixes_ok (d : mergeData) (h : ∀ p ∈ d.Suffixes, p.err = none)
    (w : String) (args : List Value) :
    d.writeSuffixes w args
      = (w ++ (if d.Suffixes.length > 0 then " " ++ partsText d.Suffixes else ""),
          args ++ partsArgs d.Suffixes, none) := by
  unfold mergeData.writeSuffixes
  by_cases hp : d.Suffixes.length > 0
  · simp [hp, appendToSql_ok " " d.Suffixes h, partsText, String.append_assoc]
  · have : d.Suffixes = [] := by
      cases hd : d.Suffixes with
      | nil => rfl
      | cons a l => simp [hd] at hp
    simp [this, partsArgs]

theorem writeSource_ok (d : mergeData) (hv : d.Values.length ≠ 0 ∨ d.Select.isSome)
    (h : sourceOk d) (w : String) (args : List Value) :
    d.writeSource w args = (w ++ "(" ++ sourceText d, args ++ sourceArgs d, none) := by
  unfold mergeData.writeSource sourceText sourceArgs
  unfold sourceOk at h
  cases hs : d.Select with
  | some sel =>
    rw [hs] at h
    simp only at h
    simp [mergeData.appendSelectToSQL, hs, h]
  | none =>
    rw [hs] at h
    simp only at h
    have hlen : d.Values.length ≠ 0 := by
      rcases hv with hv | hv
      · exact hv
      · simp [hs] at hv
    simp [-String.reduceAppend, mergeData.appendValuesToSQL, hlen, renderRows_ok d.Values h,
      rowsText, String.append_assoc]

theorem writeClauses_eq (d : mergeData) (w : String) :
    d.writeClauses w
      = w ++ ")"
        ++ (if d.ValuesAlias ≠ "" then " AS " ++ d.ValuesAlias ++ " " else "")
        ++ (if d.Columns.length > 0 then "(" ++ join "," d.Columns ++ ")" else "")
        ++ (if d.On ≠ "" then " ON " ++ d.On else "")
        ++ (if d.When.length > 0 then " WHEN " ++ join " WHEN " d.When else "") := by
  unfold mergeData.writeClauses
  by_cases h1 : d.ValuesAlias = "" <;> by_cases h2 : d.Columns.length > 0 <;>
    by_cases h3 : d.On = "" <;> by_cases h4 : d.When.length > 0 <;>
    simp [-String.reduceAppend, h1, h2, h3, h4, String.append_assoc]

/-- On a snapshot that passes the checks and whose fragments render, `ToSql` hands the
assembled text to the placeholder format and returns the arguments of the statement. -/
theorem ToSql_of_renders (d : mergeData) (h : renders d) :
    d.ToSql = ((d.PlaceholderFormat.ReplacePlaceholders (statementText d)).1,
      statementArgs d, (d.PlaceholderFormat.ReplacePlaceholders (statementText d)).2) := by
  obtain ⟨hInto, hv, hp, hs, hq⟩ := h
  have h0 : ¬ d.Into.length = 0 := by
    intro h0
    apply hInto
    have : d.Into.data = [] := List.length_eq_zero.mp h0
    exact String.ext this
  have h1 : ¬ (d.Values.length = 0 ∧ d.Select.isNone = true) := by
    rintro ⟨ha, hb⟩
    rcases hv with hv | hv
    · exact hv ha
    · cases hsel : d.Select with
      | none => simp [hsel] at hv
      | some s => simp [hsel] at hb
  unfold mergeData.ToSql
  rw [if_neg h0, if_neg h1]
  simp only [writePrefixes_ok d hp, writeSource_ok d hv hs, writeSuffixes_ok d hq,
    writeClauses_eq]
  have e : ∀ x : String, " " ++ ("USING " ++ ("(" ++ x)) = " USING (" ++ x := fun x => by
    simp [← String.append_assoc]
  simp [-String.reduceAppend, statementText, statementArgs, String.append_assoc, e]

/-! ## Where an error of `ToSql` comes from -/

theorem appendToSqlLoop_err (sep : String) (ps : List Sqlizer) (first : Bool)
    (w : String) (args : List Value) (e : Err)
    (h : (appendToSqlLoop sep ps first w args).2.2 = some e) :
    ∃ p ∈ ps, p.err = some e := by
  induction ps generalizing first w args with
  | nil => simp [appendToSqlLoop] at h
  | cons p ps ih =>
    cases hp : p.err with
    | some e1 =>
      simp only [appendToSqlLoop, hp] at h
      exact ⟨p, by simp, by rw [hp]; exact h⟩
    | none =>
      simp only [appendToSqlLoop, hp] at h
      obtain ⟨q, hq, hqe⟩ := ih _ _ _ h
      exact ⟨q, by simp [hq], hqe⟩

theorem renderCell_err (c : Value) (args : List Value) (e : Err)
    (h : (renderCell c args).2.2 = some e) : cellErr c = some e := by
  cases c with
  | nil => simp [renderCell, Value.asSqlizer] at h
  | int n => simp [renderCell, Value.asSqlizer] at h
  | str s => simp [renderCell, Value.asSqlizer] at h
  | sqlizer sql a e1 =>
    cases e1 with
    | none => simp [renderCell, Value.asSqlizer] at h
    | some e2 => simpa [renderCell, Value.asSqlizer, cellErr] using h
  | typed ty v =>
    cases v with
    | nil => simp [renderCell, Value.asSqlizer] at h
    | int n => simp [renderCell, Value.asSqlizer] at h
    | str s => simp [renderCell, Value.asSqlizer] at h
    | typed ty2 v2 => simp [renderCell, Value.asSqlizer] at h
    | sqlizer sql a e1 =>
      cases e1 with
      | none => simp [renderCell, Value.asSqlizer] at h
      | some e2 => simpa [renderCell, Value.asSqlizer, cellErr] using h

theorem renderRow_err (row : List Value) (valueStrings : List String) (args : List Value)
    (e : Err) (h : (renderRow row valueStrings args).2.2 = some e) :
    ∃ c ∈ row, cellErr c = some e := by
  induction row generalizing valueStrings args with
  | nil => simp [renderRow] at h
  | cons c row ih =>
    rcases hc : renderCell c args with ⟨s, a1, e1⟩
    cases e1 with
    | some e2 =>
      simp only [renderRow, hc] at h
      refine ⟨c, by simp, renderCell_err c args e ?_⟩
      rw [hc]; exact h
    | none =>
      simp only [renderRow, hc] at h
      obtain ⟨x, hx, hxe⟩ := ih _ _ h
      exact ⟨x, by simp [hx], hxe⟩

theorem renderRows_err (rows : List (List Value)) (valuesStrings : List String)
    (args : List Value) (e : Err) (h : (renderRows rows valuesStrings args).2.2 = some e) :
    ∃ row ∈ rows, ∃ c ∈ row, cellErr c = some e := by
  induction rows generalizing valuesStrings args with
  | nil => simp [renderRows] at h
  | cons row rows ih =>
    rcases hr : renderRow row [] args with ⟨ss, a1, e1⟩
    cases e1 with
    | some e2 =>
      simp only [renderRows, hr] at h
      refine ⟨row, by simp, renderRow_err row [] args e ?_⟩
      rw [hr]; exact h
    | none =>
      simp only [renderRows, hr] at h
      obtain ⟨r, hr2, hre⟩ := ih _ _ h
      exact ⟨r, by simp [hr2], hre⟩

theorem writePrefixes_err (d : mergeData) (w : String) (args : List Value) (e : Err)
    (h : (d.writePrefixes w args).2.2 = some e) : ∃ p ∈ d.Prefixes, p.err = some e := by
  unfold mergeData.writePrefixes at h
  by_cases hp : d.Prefixes.length > 0
  · rw [if_pos hp] at h
    rcases ha : appendToSql d.Prefixes w " " args with ⟨w1, a1, e1⟩
    rw [ha] at h
    cases e1 with
    | none => simp at h
    | some e2 =>
      simp only at h
      apply appendToSqlLoop_err " " d.Prefixes true w args e
      unfold appendToSql at ha
      rw [ha]; exact h
  · rw [if_neg hp] at h
    simp at h

theorem writeSuffixes_err (d : mergeData) (w : String) (args : List Value) (e : Err)
    (h : (d.writeSuffixes w args).2.2 = some e) : ∃ p ∈ d.Suffixes, p.err = some e := by
  unfold mergeData.writeSuffixes at h
  by_cases hp : d.Suffixes.length > 0
  · rw [if_pos hp] at h
    exact appendToSqlLoop_err " " d.Suffixes true _ args e h
  · rw [if_neg hp] at h
    simp at h

theorem writeSource_err (d : mergeData) (w : String) (args : List Value) (e : Err)
    (hv : ¬ (d.Values.length = 0 ∧ d.Select.isNone))
    (h : (d.writeSource w args).2.2 = some e) :
    (∃ s, d.Select = some s ∧ s.err = some e) ∨
      (d.Select = none ∧ ∃ row ∈ d.Values, ∃ c ∈ row, cellErr c = some e) := by
  unfold mergeData.writeSource at h
  cases hs : d.Select with
  | some sel =>
    left
    refine ⟨sel, rfl, ?_⟩
    simp only [hs, mergeData.appendSelectToSQL] at h
    cases he : sel.err with
    | none => simp [he] at h
    | some e1 => simpa [he] using h
  | none =>
    right
    refine ⟨rfl, ?_⟩
    have hlen : ¬ d.Values.length = 0 := fun h0 => hv ⟨h0, by simp [hs]⟩
    simp only [hs, mergeData.appendValuesToSQL, if_neg hlen] at h
    rcases hr : renderRows d.Values [] args with ⟨ss, a1, e1⟩
    rw [hr] at h
    cases e1 with
    | none => simp at h
    | some e2 =>
      simp only at h
      apply renderRows_err d.Values [] args e
      rw [hr]; exact h

/-- An error returned by `ToSql` is `ErrNoTable` of the first check, `ErrNoValues` of the
second check, the error of a nested fragment, or the error of the placeholder format. -/
theorem ToSql_err_cases (d : mergeData) (e : Err) (h : d.ToSql.2.2 = some e) :
    (d.Into = "" ∧ e = Err.ErrNoTable) ∨
    (d.Into ≠ "" ∧ d.Values = [] ∧ d.Select = none ∧ e = Err.ErrNoValues) ∨
    (∃ p ∈ d.Prefixes, p.err = some e) ∨
    (∃ s, d.Select = some s ∧ s.err = some e) ∨
    (d.Select = none ∧ ∃ row ∈ d.Values, ∃ c ∈ row, cellErr c = some e) ∨
    (∃ p ∈ d.Suffixes, p.err = some e) ∨
    (∃ t, (d.PlaceholderFormat.ReplacePlaceholders t).2 = some e) := by
  unfold mergeData.ToSql at h
  by_cases h0 : d.Into.length = 0
  · left
    rw [if_pos h0] at h
    exact ⟨String.ext (List.length_eq_zero.mp h0), by simpa using h.symm⟩
  · have hInto : d.Into ≠ "" := fun hI => h0 (by rw [hI]; rfl)
    rw [if_neg h0] at h
    by_cases h1 : d.Values.length = 0 ∧ d.Select.isNone
    · right; left
      rw [if_pos h1] at h
      refine ⟨hInto, List.length_eq_zero.mp h1.1, ?_, by simpa using h.symm⟩
      cases hs : d.Select with
      | none => rfl
      | some s => have := h1.2; simp [hs] at this
    · rw [if_neg h1] at h
      right; right
      rcases hp : d.writePrefixes "" [] with ⟨w1, a1, e1⟩
      rw [hp] at h
      cases e1 with
      | some e2 =>
        left
        apply writePrefixes_err d "" [] e
        rw [hp]; exact h
      | none =>
        right
        simp only at h
        rcases hsrc : d.writeSource (w1 ++ "MERGE INTO " ++ d.Into ++ " " ++ "USING ") a1
          with ⟨w3, a2, e3⟩
        rw [hsrc] at h
        cases e3 with
        | some e4 =>
          have := writeSource_err d _ a1 e h1 (by rw [hsrc]; exact h)
          rcases this with hx | hx
          · exact Or.inl hx
          · exact Or.inr (Or.inl hx)
        | none =>
          right; right
          simp only at h
          rcases hsuf : d.writeSuffixes (d.writeClauses w3) a2 with ⟨w4, a3, e5⟩
          rw [hsuf] at h
          cases e5 with
          | some e6 =>
            left
            apply writeSuffixes_err d _ a2 e
            rw [hsuf]; exact h
          | none =>
            right
            exact ⟨w4, h⟩

/-! ## The statement as a whole -/

/-- C1: on a snapshot with a non-empty table, no sub-select, at least one value row, and
prefixes, suffixes and cells that render without error, `ToSql` under the `Question` dialect
succeeds with the text: the prefixes joined by a space and one space (if any), `MERGE INTO`,
the table, ` USING (VALUES `, the rows, `)`, then ` AS alias ` (if set), the bracketed
columns (if any), ` ON on` (if set), ` WHEN ` and the clauses joined by ` WHEN ` (if any),
a space and the suffixes joined by a space (if any); the arguments are those of the
prefixes, the rows and the suffixes. -/
theorem C1_ToSql_values_text (d : mergeData)
    (hInto : d.Into ≠ "") (hSel : d.Select = none) (hRows : d.Values ≠ [])
    (hPre : ∀ p ∈ d.Prefixes, p.err = none) (hSuf : ∀ p ∈ d.Suffixes, p.err = none)
    (hCells : ∀ row ∈ d.Values, ∀ c ∈ row, cellErr c = none)
    (hFmt : d.PlaceholderFormat = Question) :
    d.ToSql =
      ((if d.Prefixes.length > 0 then join " " (d.Prefixes.map Sqlizer.sql) ++ " " else "")
          ++ "MERGE INTO " ++ d.Into ++ " USING (VALUES " ++ rowsText d.Values ++ ")"
          ++ (if d.ValuesAlias ≠ "" then " AS " ++ d.ValuesAlias ++ " " else "")
          ++ (if d.Columns.length > 0 then "(" ++ join "," d.Columns ++ ")" else "")
          ++ (if d.On ≠ "" then " ON " ++ d.On else "")
          ++ (if d.When.length > 0 then " WHEN " ++ join " WHEN " d.When else "")
          ++ (if d.Suffixes.length > 0 then " " ++ join " " (d.Suffixes.map Sqlizer.sql)
              else ""),
        partsArgs d.Prefixes ++ rowsArgs d.Values ++ partsArgs d.Suffixes,
        none) := by
  have hr : renders d := by
    refine ⟨hInto, Or.inl ?_, hPre, ?_, hSuf⟩
    · intro h0
      exact hRows (List.length_eq_zero.mp h0)
    · simp only [sourceOk, hSel]
      exact hCells
  have e : ∀ x : String, " USING (" ++ ("VALUES " ++ x) = " USING (VALUES " ++ x := fun x => by
    simp [← String.append_assoc]
  rw [ToSql_of_renders d hr, hFmt]
  simp [-String.reduceAppend, Question, statementText, statementArgs, sourceText, sourceArgs,
    hSel, partsText, String.append_assoc, e]

/-- C1, at the builder of `TestMergeBuilderToSql`: the hypotheses hold, and the render is
the text the test expects with the arguments `[0, 1, 2]`. -/
theorem C1_ToSql_values_text_witness :
    testToSqlBuilder.Into ≠ "" ∧ testToSqlBuilder.Select = none ∧
      testToSqlBuilder.Values ≠ [] ∧
      testToSqlBuilder.ToSql
        = (testToSqlExpected, [Value.int 0, Value.int 1, Value.int 2], none) :=
  ⟨by decide, rfl, by simp [testToSqlBuilder, mergeData.addSuffix, mergeData.SuffixExpr,
      mergeData.addWhen, mergeData.setOn, mergeData.addColumns, mergeData.setValuesAlias,
      mergeData.addValues],
    (C1_ToSql_values_text testToSqlBuilder (by decide) rfl
      (by simp [testToSqlBuilder, mergeData.addSuffix, mergeData.SuffixExpr,
        mergeData.addWhen, mergeData.setOn, mergeData.addColumns, mergeData.setValuesAlias,
        mergeData.addValues])
      (by
        intro p hp
        have : p = Expr "WITH prefix AS ?" [Value.int 0] := by
          simpa [testToSqlBuilder, mergeData.addSuffix, mergeData.SuffixExpr,
            mergeData.addWhen, mergeData.setOn, mergeData.addColumns,
            mergeData.setValuesAlias, mergeData.addValues, mergeData.addPrefix,
            mergeData.PrefixExpr, Merge] using hp
        rw [this]; rfl)
      (by
        intro p hp
        have : p = Expr "RETURNING a.b" [] := by
          simpa [testToSqlBuilder, mergeData.addSuffix, mergeData.SuffixExpr,
            mergeData.addWhen, mergeData.setOn, mergeData.addColumns,
            mergeData.setValuesAlias, mergeData.addValues, mergeData.addPrefix,
            mergeData.PrefixExpr, Merge] using hp
        rw [this]; rfl)
      (by
        intro row hrow c hc
        have hrow2 : row = [Value.int 1, Value.int 2] := by
          simpa [testToSqlBuilder, mergeData.addSuffix, mergeData.SuffixExpr,
            mergeData.addWhen, mergeData.setOn, mergeData.addColumns,
            mergeData.setValuesAlias, mergeData.addValues, mergeData.addPrefix,
            mergeData.PrefixExpr, Merge] using hrow
        rw [hrow2] at hc
        simp only [List.mem_cons, List.mem_singleton] at hc
        rcases hc with hc | hc | hc
        · rw [hc]; rfl
        · rw [hc]; rfl
        · exact absurd hc (List.not_mem_nil _))
      rfl).trans rfl⟩

/-- C2: on a snapshot whose table is the empty string, `ToSql` returns `ErrNoTable` with
the empty text and no arguments, whatever the other fields hold. -/
theorem C2_ToSql_no_table (d : mergeData) (h : d.Into = "") :
    d.ToSql = ("", [], some Err.ErrNoTable) := by
  unfold mergeData.ToSql
  simp [h]

/-- C2, at a snapshot with an empty table, no value rows, no sub-select and a failing
prefix: `ErrNoTable` comes before `ErrNoValues` and before the prefix error; and at
`Merge("").Values(1)` of `TestMergeBuilderToSqlErr`. -/
theorem C2_ToSql_no_table_witness :
    ((Merge "").PrefixExpr (failingExpr "boom")).ToSql = ("", [], some Err.ErrNoTable) ∧
      ((Merge "").addValues [Value.int 1]).ToSql = ("", [], some Err.ErrNoTable) :=
  ⟨C2_ToSql_no_table _ rfl, rfl⟩

/-- C3, as stated, fails: `Merge("x").Values(Merge("y"))` has a non-empty table and one
value row, and `ToSql` returns `ErrNoValues` with the empty text and no arguments, the
error being that of the nested builder, handed on unchanged. -/
theorem C3_ToSql_no_values_counterexample :
    nestedNoValuesBuilder.Into ≠ "" ∧
      nestedNoValuesBuilder.ToSql = ("", [], some Err.ErrNoValues) ∧
      ¬ (nestedNoValuesBuilder.Values = [] ∧ nestedNoValuesBuilder.Select = none) :=
  ⟨by decide, rfl, by simp [nestedNoValuesBuilder, mergeData.addValues]⟩

/-- C3, amended: on a snapshot with a non-empty table in which no nested fragment (prefix,
sub-select, cell, suffix) and no placeholder rewrite fails with `ErrNoValues` itself,
`ToSql` returns the error `ErrNoValues` only if there are no value rows and no sub-select,
and in that case it returns `ErrNoValues` with the empty text and no arguments. -/
theorem C3_ToSql_no_values (d : mergeData) (hInto : d.Into ≠ "")
    (hPre : ∀ p ∈ d.Prefixes, p.err ≠ some Err.ErrNoValues)
    (hSel : ∀ s, d.Select = some s → s.err ≠ some Err.ErrNoValues)
    (hCells : ∀ row ∈ d.Values, ∀ c ∈ row, cellErr c ≠ some Err.ErrNoValues)
    (hSuf : ∀ p ∈ d.Suffixes, p.err ≠ some Err.ErrNoValues)
    (hFmt : ∀ t, (d.PlaceholderFormat.ReplacePlaceholders t).2 ≠ some Err.ErrNoValues) :
    (d.ToSql.2.2 = some Err.ErrNoValues → d.Values = [] ∧ d.Select = none) ∧
      (d.Values = [] ∧ d.Select = none → d.ToSql = ("", [], some Err.ErrNoValues)) := by
  constructor
  · intro h
    rcases ToSql_err_cases d _ h with h1 | h1 | h1 | h1 | h1 | h1 | h1
    · exact absurd h1.1 hInto
    · exact ⟨h1.2.1, h1.2.2.1⟩
    · obtain ⟨p, hp, hpe⟩ := h1
      exact absurd hpe (hPre p hp)
    · obtain ⟨s, hs, hse⟩ := h1
      exact absurd hse (hSel s hs)
    · obtain ⟨_, row, hrow, c, hc, hce⟩ := h1
      exact absurd hce (hCells row hrow c hc)
    · obtain ⟨p, hp, hpe⟩ := h1
      exact absurd hpe (hSuf p hp)
    · obtain ⟨t, ht⟩ := h1
      exact absurd ht (hFmt t)
  · rintro ⟨hV, hS⟩
    have h0 : ¬ d.Into.length = 0 := fun h0 => hInto (String.ext (List.length_eq_zero.mp h0))
    unfold mergeData.ToSql
    rw [if_neg h0]
    simp [hV, hS]

/-- C3, amended, at `Merge("x")` of `TestMergeBuilderToSqlErr`: no rows, no sub-select,
`ErrNoValues`; and at `Merge("test").Values(1)`: a row, no `ErrNoValues`. -/
theorem C3_ToSql_no_values_witness :
    (Merge "x").Into ≠ "" ∧ (Merge "x").ToSql = ("", [], some Err.ErrNoValues) ∧
      ((Merge "test").addValues [Value.int 1]).ToSql.2.2 ≠ some Err.ErrNoValues :=
  ⟨by decide,
    (C3_ToSql_no_values (Merge "x") (by decide) (by simp [Merge]) (by simp [Merge])
      (by simp [Merge]) (by simp [Merge]) (by simp [Merge, Question])).2 ⟨rfl, rfl⟩,
    fun h => by
      have := (C3_ToSql_no_values ((Merge "test").addValues [Value.int 1]) (by decide)
        (by simp [Merge, mergeData.addValues]) (by simp [Merge, mergeData.addValues])
        (by simp [Merge, mergeData.addValues, cellErr])
        (by simp [Merge, mergeData.addValues])
        (by simp [Merge, mergeData.addValues, Question])).1 h
      simp [Merge, mergeData.addValues] at this⟩

/-! ## A statement with the source only -/

theorem ToSql_bare (d : mergeData) (hInto : d.Into ≠ "")
    (hv : d.Values ≠ [] ∨ d.Select.isSome) (hs : sourceOk d)
    (hAlias : d.ValuesAlias = "") (hCols : d.Columns = []) (hOn : d.On = "")
    (hWhen : d.When = []) (hPre : d.Prefixes = []) (hSuf : d.Suffixes = [])
    (hFmt : d.PlaceholderFormat = Question) :
    d.ToSql = ("MERGE INTO " ++ d.Into ++ " USING (" ++ sourceText d ++ ")",
      sourceArgs d, none) := by
  have hr : renders d := by
    refine ⟨hInto, ?_, by simp [hPre], hs, by simp [hSuf]⟩
    rcases hv with hv | hv
    · exact Or.inl (fun h0 => hv (List.length_eq_zero.mp h0))
    · exact Or.inr hv
  rw [ToSql_of_renders d hr, hFmt]
  simp [-String.reduceAppend, Question, statementText, statementArgs, hAlias, hCols, hOn,
    hWhen, hPre, hSuf, partsArgs, String.append_assoc]

theorem sourceText_one_scalar (d : mergeData) (v : Value) (hRow : d.Values = [[v]])
    (hv : isPlainScalar v = true) (hSel : d.Select = none) :
    sourceText d = "VALUES (?)" ∧ sourceArgs d = [v] ∧ sourceOk d := by
  cases v with
  | nil => simp [sourceText, sourceArgs, sourceOk, hSel, hRow, rowsText, rowText, join,
      cellText, rowsArgs, rowArgs, cellArgs, cellErr]
  | int n => simp [sourceText, sourceArgs, sourceOk, hSel, hRow, rowsText, rowText, join,
      cellText, rowsArgs, rowArgs, cellArgs, cellErr]
  | str t => simp [sourceText, sourceArgs, sourceOk, hSel, hRow, rowsText, rowText, join,
      cellText, rowsArgs, rowArgs, cellArgs, cellErr]
  | typed ty w => simp [isPlainScalar] at hv
  | sqlizer q a e => simp [isPlainScalar] at hv

/-- C4: on a snapshot with a non-empty table, a source that renders, and no alias, columns,
`ON`, `WHEN`, prefixes or suffixes, `ToSql` under the `Question` dialect returns exactly
`MERGE INTO <table> USING (<source>)`, with the arguments of the source. -/
theorem C4_ToSql_source_only (d : mergeData) (hInto : d.Into ≠ "")
    (hv : d.Values ≠ [] ∨ d.Select.isSome) (hs : sourceOk d)
    (hAlias : d.ValuesAlias = "") (hCols : d.Columns = []) (hOn : d.On = "")
    (hWhen : d.When = []) (hPre : d.Prefixes = []) (hSuf : d.Suffixes = [])
    (hFmt : d.PlaceholderFormat = Question) :
    d.ToSql = ("MERGE INTO " ++ d.Into ++ " USING (" ++ sourceText d ++ ")",
      sourceArgs d, none) :=
  ToSql_bare d hInto hv hs hAlias hCols hOn hWhen hPre hSuf hFmt

/-- C4, at `Merge("test").Values(1, 2)` of `TestMergeBuilderPlaceholders`: the text is
`MERGE INTO test USING (VALUES (?,?))`; and `Merge("test").Values(1).RunWith(db).Exec()` of
`TestMergeBuilderRunners` hands `MERGE INTO test USING (VALUES (?))` to the runner. -/
theorem C4_ToSql_source_only_witness :
    ((Merge "test").addValues [Value.int 1, Value.int 2]).ToSql
        = ("MERGE INTO test USING (VALUES (?,?))", [Value.int 1, Value.int 2], none) ∧
      testRunnersBuilder.Exec
        = Except.ok (RunnerCall.Exec "MERGE INTO test USING (VALUES (?))" [Value.int 1]) :=
  ⟨(C4_ToSql_source_only ((Merge "test").addValues [Value.int 1, Value.int 2]) (by decide)
      (Or.inl (by simp [Merge, mergeData.addValues]))
      (by simp [sourceOk, Merge, mergeData.addValues, cellErr])
      rfl rfl rfl rfl rfl rfl rfl).trans rfl, rfl⟩

/-- C5, as stated, fails: for `Merge("test").Values(1).RunWith(db)` the text handed to the
runner by `ExecContext`, `QueryContext` and `QueryRowContext` is
`MERGE INTO test USING (VALUES (?))`, which is not `MERGE INTO test USING (VALUES (?)) ()`. -/
theorem C5_context_text_counterexample :
    testRunnersBuilder.ExecContext
        = Except.ok (RunnerCall.ExecContext "MERGE INTO test USING (VALUES (?))"
            [Value.int 1]) ∧
      testRunnersBuilder.QueryContext
        = Except.ok (RunnerCall.QueryContext "MERGE INTO test USING (VALUES (?))"
            [Value.int 1]) ∧
      testRunnersBuilder.QueryRowContext
        = Except.ok (RunnerCall.QueryRowContext "MERGE INTO test USING (VALUES (?))"
            [Value.int 1]) ∧
      "MERGE INTO test USING (VALUES (?))" ≠ "MERGE INTO test USING (VALUES (?)) ()" :=
  ⟨rfl, rfl, rfl, by decide⟩

/-- C5, amended: on a snapshot with a non-empty table `T`, exactly one value row holding
one plain scalar, no sub-select, no alias, columns, `ON`, `WHEN`, prefixes or suffixes, the
`Question` dialect and a bound runner that satisfies the context interfaces, the statement
text that `ExecContext`, `QueryContext` and `QueryRowContext` hand to the runner is
`MERGE INTO T USING (VALUES (?))`, with the scalar as the only argument. -/
theorem C5_context_text (d : mergeData) (v : Value) (r : BaseRunner)
    (hInto : d.Into ≠ "") (hRow : d.Values = [[v]]) (hv : isPlainScalar v = true)
    (hSel : d.Select = none)
    (hAlias : d.ValuesAlias = "") (hCols : d.Columns = []) (hOn : d.On = "")
    (hWhen : d.When = []) (hPre : d.Prefixes = []) (hSuf : d.Suffixes = [])
    (hFmt : d.PlaceholderFormat = Question) (hRun : d.RunWith = some r)
    (hExec : r.isExecerContext = true) (hQuery : r.isQueryerContext = true)
    (hRowQ : r.isQueryRowerContext = true) :
    d.ExecContext
        = Except.ok (RunnerCall.ExecContext ("MERGE INTO " ++ d.Into ++ " USING (VALUES (?))")
            [v]) ∧
      d.QueryContext
        = Except.ok (RunnerCall.QueryContext ("MERGE INTO " ++ d.Into ++ " USING (VALUES (?))")
            [v]) ∧
      d.QueryRowContext
        = Except.ok (RunnerCall.QueryRowContext
            ("MERGE INTO " ++ d.Into ++ " USING (VALUES (?))") [v]) := by
  obtain ⟨hText, hArgs, hOk⟩ := sourceText_one_scalar d v hRow hv hSel
  have hT : d.ToSql = ("MERGE INTO " ++ d.Into ++ " USING (VALUES (?))", [v], none) := by
    rw [ToSql_bare d hInto (Or.inl (by simp [hRow])) hOk hAlias hCols hOn hWhen hPre hSuf
      hFmt, hText, hArgs]
    have e : ∀ x : String, x ++ " USING (" ++ "VALUES (?)" ++ ")" = x ++ " USING (VALUES (?))" :=
      fun x => by simp [String.append_assoc]
    rw [e]
  simp [mergeData.ExecContext, mergeData.QueryContext, mergeData.QueryRowContext, hRun,
    hExec, hQuery, hRowQ, runWith, hT]

/-- C5, amended, at `Merge("test").Values(1).RunWith(db)` of
`TestMergeBuilderContextRunners`. -/
theorem C5_context_text_witness :
    testRunnersBuilder.Into ≠ "" ∧ testRunnersBuilder.Values = [[Value.int 1]] ∧
      testRunnersBuilder.ExecContext
        = Except.ok (RunnerCall.ExecContext "MERGE INTO test USING (VALUES (?))"
            [Value.int 1]) :=
  ⟨by decide, rfl,
    (C5_context_text testRunnersBuilder (Value.int 1) DBStub (by decide) rfl rfl rfl rfl rfl
      rfl rfl rfl rfl rfl rfl rfl rfl rfl).1.trans rfl⟩

/-! ## What a successful render tells about the fragments -/

theorem appendToSqlLoop_none (sep : String) (ps : List Sqlizer) (first : Bool)
    (w : String) (args : List Value)
    (h : (appendToSqlLoop sep ps first w args).2.2 = none) :
    ∀ p ∈ ps, p.err = none := by
  induction ps generalizing first w args with
  | nil => simp
  | cons p ps ih =>
    cases hp : p.err with
    | some e1 => simp [appendToSqlLoop, hp] at h
    | none =>
      simp only [appendToSqlLoop, hp] at h
      intro q hq
      rcases List.mem_cons.mp hq with hq | hq
      · rw [hq]; exact hp
      · exact ih _ _ _ h q hq

theorem renderCell_none (c : Value) (args : List Value)
    (h : (renderCell c args).2.2 = none) : cellErr c = none := by
  cases hc : cellErr c with
  | none => rfl
  | some e =>
    exfalso
    cases c with
    | nil => simp [cellErr] at hc
    | int n => simp [cellErr] at hc
    | str t => simp [cellErr] at hc
    | sqlizer q a e1 =>
      simp only [cellErr] at hc
      subst hc
      simp [renderCell, Value.asSqlizer] at h
    | typed ty v =>
      cases v with
      | nil => simp [cellErr] at hc
      | int n => simp [cellErr] at hc
      | str t => simp [cellErr] at hc
      | typed ty2 v2 => simp [cellErr] at hc
      | sqlizer q a e1 =>
        simp only [cellErr] at hc
        subst hc
        simp [renderCell, Value.asSqlizer] at h

theorem renderRow_none (row : List Value) (valueStrings : List String) (args : List Value)
    (h : (renderRow row valueStrings args).2.2 = none) : ∀ c ∈ row, cellErr c = none := by
  induction row generalizing valueStrings args with
  | nil => simp
  | cons c row ih =>
    rcases hc : renderCell c args with ⟨t, a1, e1⟩
    cases e1 with
    | some e2 => simp [renderRow, hc] at h
    | none =>
      simp only [renderRow, hc] at h
      intro x hx
      rcases List.mem_cons.mp hx with hx | hx
      · rw [hx]
        apply renderCell_none c args
        rw [hc]
      · exact ih _ _ h x hx

theorem renderRows_none (rows : List (List Value)) (valuesStrings : List String)
    (args : List Value) (h : (renderRows rows valuesStrings args).2.2 = none) :
    ∀ row ∈ rows, ∀ c ∈ row, cellErr c = none := by
  induction rows generalizing valuesStrings args with
  | nil => simp
  | cons row rows ih =>
    rcases hr : renderRow row [] args with ⟨ss, a1, e1⟩
    cases e1 with
    | some e2 => simp [renderRows, hr] at h
    | none =>
      simp only [renderRows, hr] at h
      intro x hx
      rcases List.mem_cons.mp hx with hx | hx
      · rw [hx]
        apply renderRow_none row [] args
        rw [hr]
      · exact ih _ _ h x hx

theorem writePrefixes_none (d : mergeData) (w : String) (args : List Value)
    (h : (d.writePrefixes w args).2.2 = none) : ∀ p ∈ d.Prefixes, p.err = none := by
  unfold mergeData.writePrefixes at h
  by_cases hp : d.Prefixes.length > 0
  · rw [if_pos hp] at h
    rcases ha : appendToSql d.Prefixes w " " args with ⟨w1, a1, e1⟩
    rw [ha] at h
    cases e1 with
    | some e2 => simp at h
    | none =>
      apply appendToSqlLoop_none " " d.Prefixes true w args
      unfold appendToSql at ha
      rw [ha]
  · have : d.Prefixes = [] := by
      cases hd : d.Prefixes with
      | nil => rfl
      | cons a l => simp [hd] at hp
    simp [this]

theorem writeSuffixes_none (d : mergeData) (w : String) (args : List Value)
    (h : (d.writeSuffixes w args).2.2 = none) : ∀ p ∈ d.Suffixes, p.err = none := by
  unfold mergeData.writeSuffixes at h
  by_cases hp : d.Suffixes.length > 0
  · rw [if_pos hp] at h
    exact appendToSqlLoop_none " " d.Suffixes true _ args h
  · have : d.Suffixes = [] := by
      cases hd : d.Suffixes with
      | nil => rfl
      | cons a l => simp [hd] at hp
    simp [this]

theorem writeSource_none (d : mergeData) (w : String) (args : List Value)
    (h : (d.writeSource w args).2.2 = none) : sourceOk d := by
  unfold mergeData.writeSource at h
  unfold sourceOk
  cases hs : d.Select with
  | some sel =>
    simp only [hs, mergeData.appendSelectToSQL] at h
    cases he : sel.err with
    | none => exact he
    | some e1 => simp [he] at h
  | none =>
    simp only [hs, mergeData.appendValuesToSQL] at h
    by_cases hlen : d.Values.length = 0
    · simp [hlen] at h
    · rw [if_neg hlen] at h
      rcases hr : renderRows d.Values [] args with ⟨ss, a1, e1⟩
      rw [hr] at h
      cases e1 with
      | some e2 => simp at h
      | none =>
        apply renderRows_none d.Values [] args
        rw [hr]

/-- A render without error comes from a snapshot that passes the two checks and whose
fragments all render. -/
theorem renders_of_ToSql_none (d : mergeData) (h : d.ToSql.2.2 = none) : renders d := by
  unfold mergeData.ToSql at h
  by_cases h0 : d.Into.length = 0
  · simp [h0] at h
  · have hInto : d.Into ≠ "" := fun hI => h0 (by rw [hI]; rfl)
    rw [if_neg h0] at h
    by_cases h1 : d.Values.length = 0 ∧ d.Select.isNone
    · simp [h1] at h
    · rw [if_neg h1] at h
      have hv : d.Values.length ≠ 0 ∨ d.Select.isSome := by
        by_cases hl : d.Values.length = 0
        · right
          cases hs : d.Select with
          | none => exact absurd ⟨hl, by simp [hs]⟩ h1
          | some x => rfl
        · exact Or.inl hl
      rcases hp : d.writePrefixes "" [] with ⟨w1, a1, e1⟩
      rw [hp] at h
      cases e1 with
      | some e2 => simp at h
      | none =>
        simp only at h
        rcases hsrc : d.writeSource (w1 ++ "MERGE INTO " ++ d.Into ++ " " ++ "USING ") a1
          with ⟨w3, a2, e3⟩
        rw [hsrc] at h
        cases e3 with
        | some e4 => simp at h
        | none =>
          simp only at h
          rcases hsuf : d.writeSuffixes (d.writeClauses w3) a2 with ⟨w4, a3, e5⟩
          rw [hsuf] at h
          cases e5 with
          | some e6 => simp at h
          | none =>
            exact ⟨hInto, hv, writePrefixes_none d "" [] (by rw [hp]),
              writeSource_none d _ a1 (by rw [hsrc]),
              writeSuffixes_none d _ a2 (by rw [hsuf])⟩

/-- C6: when `ToSql` succeeds, the returned arguments are those of the prefixes in prefix
order, then those of the source (the sub-select's if one is set, else the cells' in
row-major order, a scalar giving itself and a nested fragment its own arguments), then
those of the suffixes in suffix order. -/
theorem C6_ToSql_args_order (d : mergeData) (h : d.ToSql.2.2 = none) :
    d.ToSql.2.1 = partsArgs d.Prefixes
      ++ (match d.Select with
          | some sel => sel.args
          | none => rowsArgs d.Values)
      ++ partsArgs d.Suffixes := by
  rw [ToSql_of_renders d (renders_of_ToSql_none d h)]
  rfl

/-- C6, at the builder of `TestMergeBuilderToSql`: the render succeeds and the arguments
are the prefix argument `0`, then the row `1, 2`. -/
theorem C6_ToSql_args_order_witness :
    testToSqlBuilder.ToSql.2.2 = none ∧
      testToSqlBuilder.ToSql.2.1 = [Value.int 0, Value.int 1, Value.int 2] :=
  ⟨rfl, (C6_ToSql_args_order testToSqlBuilder rfl).trans rfl⟩

/-! ## Counting the markers of the statement -/

theorem countMarkers_cons_ne (c : Char) (l : List Char) (hc : c ≠ '?') :
    countMarkers (c :: l) = countMarkers l := by
  cases l with
  | nil => simp [countMarkers, hc]
  | cons d rest => simp [countMarkers, hc]

theorem countMarkers_append_left (a b : List Char) (ha : '?' ∉ a) :
    countMarkers (a ++ b) = countMarkers b := by
  induction a with
  | nil => rfl
  | cons c a ih =>
    have hc : c ≠ '?' := fun h => ha (by simp [h])
    have ha2 : '?' ∉ a := fun h => ha (by simp [h])
    rw [List.cons_append, countMarkers_cons_ne _ _ hc, ih ha2]

theorem countMarkers_append_right_aux (b : List Char) (hb : b.head? ≠ some '?')
    (a : List Char) :
    countMarkers (a ++ b) = countMarkers a + countMarkers b ∧
      ∀ c, countMarkers (c :: a ++ b) = countMarkers (c :: a) + countMarkers b := by
  induction a with
  | nil =>
    refine ⟨by simp [countMarkers], fun c => ?_⟩
    by_cases hc : c = '?'
    · subst hc
      cases b with
      | nil => simp [countMarkers]
      | cons e b =>
        have he : e ≠ '?' := fun h => hb (by simp [h])
        simp [countMarkers, he]
    · rw [List.cons_append, countMarkers_cons_ne _ _ hc, countMarkers_cons_ne _ _ hc]
      simp [countMarkers]
  | cons d a ih =>
    refine ⟨ih.2 d, fun c => ?_⟩
    by_cases hc : c = '?'
    · subst hc
      by_cases hd : d = '?'
      · subst hd
        simpa [countMarkers] using ih.1
      · have := ih.2 d
        simp only [List.cons_append] at this
        simp [countMarkers, hd, this, Nat.add_assoc]
    · have := ih.2 d
      simp only [List.cons_append] at this ⊢
      rw [countMarkers_cons_ne _ _ hc, countMarkers_cons_ne _ _ hc, this]

theorem markers_append_left (a b : String) (ha : noMarker a) :
    markers (a ++ b) = markers b := by
  unfold markers
  rw [String.data_append]
  exact countMarkers_append_left _ _ ha

theorem markers_append_right (a b : String) (hb : startsClean b) :
    markers (a ++ b) = markers a + markers b := by
  unfold markers
  rw [String.data_append]
  exact (countMarkers_append_right_aux _ hb _).1

theorem markers_of_noMarker (a : String) (ha : noMarker a) : markers a = 0 := by
  have := markers_append_left a "" ha
  simpa [markers, countMarkers] using this

theorem startsClean_of_noMarker (a : String) (ha : noMarker a) : startsClean a := by
  unfold startsClean
  unfold noMarker at ha
  intro h
  apply ha
  cases hd : a.data with
  | nil => simp [hd] at h
  | cons c l =>
    simp [hd] at h
    simp [h]

theorem startsClean_append (a b : String) (ha : noMarker a) (hb : startsClean b) :
    startsClean (a ++ b) := by
  unfold startsClean at hb ⊢
  unfold noMarker at ha
  rw [String.data_append]
  cases hd : a.data with
  | nil => simpa using hb
  | cons c l =>
    rw [hd] at ha
    intro h
    simp at h
    exact ha (by simp [h])

theorem startsClean_append_of_ne (a b : String) (ha : noMarker a) (hne : a.data ≠ []) :
    startsClean (a ++ b) := by
  unfold startsClean
  unfold noMarker at ha
  rw [String.data_append]
  cases hd : a.data with
  | nil => exact absurd hd hne
  | cons c l =>
    rw [hd] at ha
    intro h
    simp at h
    exact ha (by simp [h])

theorem noMarker_append (a b : String) (ha : noMarker a) (hb : noMarker b) :
    noMarker (a ++ b) := by
  unfold noMarker at *
  rw [String.data_append]
  simp [ha, hb]

theorem noMarker_join (sep : String) (hs : noMarker sep) (xs : List String)
    (h : ∀ x ∈ xs, noMarker x) : noMarker (join sep xs) := by
  induction xs with
  | nil => simp [join, noMarker]
  | cons x xs ih =>
    cases xs with
    | nil => simpa [join] using h x (by simp)
    | cons y ys =>
      simp only [join]
      exact noMarker_append _ _ (noMarker_append _ _ (h x (by simp)) hs)
        (ih (fun z hz => h z (by simp [hz])))

theorem markers_sepAll (sep : String) (hs : noMarker sep) (hne : sep.data ≠ [])
    (xs : List String) :
    markers (sepAll sep xs) = (xs.map markers).sum ∧ startsClean (sepAll sep xs) := by
  induction xs with
  | nil => simp [sepAll, markers, countMarkers, startsClean]
  | cons x xs ih =>
    constructor
    · simp only [sepAll, List.map_cons, List.sum_cons]
      rw [markers_append_right _ _ ih.2, markers_append_left _ _ hs, ih.1]
    · simp only [sepAll, startsClean, String.data_append]
      cases hd : sep.data with
      | nil => exact absurd hd hne
      | cons c l =>
        intro h
        simp at h
        apply hs
        show '?' ∈ sep.data
        rw [hd, h]
        simp

theorem markers_join (sep : String) (hs : noMarker sep) (hne : sep.data ≠ [])
    (xs : List String) : markers (join sep xs) = (xs.map markers).sum := by
  cases xs with
  | nil => simp [join, markers, countMarkers]
  | cons x xs =>
    rw [join_cons, markers_append_right _ _ (markers_sepAll sep hs hne xs).2,
      (markers_sepAll sep hs hne xs).1]
    simp

theorem markers_join_map {α : Type} (sep : String) (hs : noMarker sep)
    (hne : sep.data ≠ []) (f : α → String) (g : α → List Value) (l : List α)
    (h : ∀ x ∈ l, markers (f x) = (g x).length) :
    markers (join sep (l.map f)) = ((l.map g).map List.length).sum := by
  rw [markers_join sep hs hne]
  induction l with
  | nil => simp
  | cons x l ih =>
    simp only [List.map_cons, List.sum_cons]
    rw [h x (by simp), ih (fun y hy => h y (by simp [hy]))]

theorem rowArgs_length (row : List Value) :
    (rowArgs row).length = ((row.map cellArgs).map List.length).sum := by
  induction row with
  | nil => simp [rowArgs]
  | cons c row ih => simp [rowArgs, ih]

theorem rowsArgs_length (rows : List (List Value)) :
    (rowsArgs rows).length = ((rows.map rowArgs).map List.length).sum := by
  induction rows with
  | nil => simp [rowsArgs]
  | cons r rows ih => simp [rowsArgs, ih]

theorem partsArgs_length (ps : List Sqlizer) :
    (partsArgs ps).length = ((ps.map Sqlizer.args).map List.length).sum := by
  induction ps with
  | nil => simp [partsArgs]
  | cons p ps ih => simp [partsArgs, ih]

theorem noMarker_cast (ty : String) (h : noMarker ty) : noMarker ("::" ++ ty) :=
  noMarker_append _ _ (by simp [noMarker]) h

theorem markers_cellText (c : Value) (hty : noMarker (cellType c))
    (hfrag : ∀ s, cellFragment c = some s → balanced s) :
    markers (cellText c) = (cellArgs c).length := by
  have one : markers "?" = 1 := by simp [markers, countMarkers]
  have cast : ∀ (x ty : String), noMarker ty → markers (x ++ "::" ++ ty) = markers x := by
    intro x ty h
    rw [String.append_assoc,
      markers_append_right _ _ (startsClean_of_noMarker _ (noMarker_cast ty h)),
      markers_of_noMarker _ (noMarker_cast ty h)]
    rfl
  cases c with
  | nil => simpa [cellText, cellArgs] using one
  | int n => simpa [cellText, cellArgs] using one
  | str t => simpa [cellText, cellArgs] using one
  | sqlizer q a e =>
    have := hfrag ⟨q, a, e⟩ rfl
    simpa [cellText, cellArgs, balanced] using this
  | typed ty v =>
    have hty2 : noMarker ty := hty
    cases v with
    | nil =>
      by_cases h : ty = ""
      · simpa [cellText, cellArgs, h] using one
      · simp only [cellText, cellArgs, ne_eq, h, not_false_eq_true, if_true]
        rw [cast _ _ hty2, one]; rfl
    | int n =>
      by_cases h : ty = ""
      · simpa [cellText, cellArgs, h] using one
      · simp only [cellText, cellArgs, ne_eq, h, not_false_eq_true, if_true]
        rw [cast _ _ hty2, one]; rfl
    | str t =>
      by_cases h : ty = ""
      · simpa [cellText, cellArgs, h] using one
      · simp only [cellText, cellArgs, ne_eq, h, not_false_eq_true, if_true]
        rw [cast _ _ hty2, one]; rfl
    | typed ty2 v2 =>
      by_cases h : ty = ""
      · simpa [cellText, cellArgs, h] using one
      · simp only [cellText, cellArgs, ne_eq, h, not_false_eq_true, if_true]
        rw [cast _ _ hty2, one]; rfl
    | sqlizer q a e =>
      have hb : markers q = a.length := hfrag ⟨q, a, e⟩ rfl
      by_cases h : ty = ""
      · simpa [cellText, cellArgs, h] using hb
      · simp only [cellText, cellArgs, ne_eq, h, not_false_eq_true, if_true]
        rw [cast _ _ hty2, hb]

theorem markers_rowText (row : List Value) (hty : ∀ c ∈ row, noMarker (cellType c))
    (hfrag : ∀ c ∈ row, ∀ s, cellFragment c = some s → balanced s) :
    markers (rowText row) = (rowArgs row).length := by
  unfold rowText
  rw [markers_append_right _ ")" (by simp [startsClean]),
    markers_append_left "(" _ (by simp [noMarker]),
    markers_join_map "," (by simp [noMarker]) (by simp) cellText cellArgs row
      (fun c hc => markers_cellText c (hty c hc) (hfrag c hc)),
    rowArgs_length]
  simp [markers, countMarkers]

theorem markers_rowsText (rows : List (List Value))
    (hty : ∀ row ∈ rows, ∀ c ∈ row, noMarker (cellType c))
    (hfrag : ∀ row ∈ rows, ∀ c ∈ row, ∀ s, cellFragment c = some s → balanced s) :
    markers (rowsText rows) = (rowsArgs rows).length := by
  unfold rowsText
  rw [markers_join_map "," (by simp [noMarker]) (by simp) rowText rowArgs rows
      (fun r hr => markers_rowText r (hty r hr) (hfrag r hr)),
    rowsArgs_length]

theorem markers_partsText (ps : List Sqlizer) (h : ∀ p ∈ ps, balanced p) :
    markers (partsText ps) = (partsArgs ps).length := by
  unfold partsText
  rw [markers_join_map " " (by simp [noMarker]) (by simp) Sqlizer.sql Sqlizer.args ps h,
    partsArgs_length]

theorem markers_sourceText (d : mergeData)
    (hSel : ∀ s, d.Select = some s → balanced s)
    (hty : ∀ row ∈ d.Values, ∀ c ∈ row, noMarker (cellType c))
    (hfrag : ∀ row ∈ d.Values, ∀ c ∈ row, ∀ s, cellFragment c = some s → balanced s) :
    markers (sourceText d) = (sourceArgs d).length := by
  unfold sourceText sourceArgs
  cases hs : d.Select with
  | some sel => exact hSel sel hs
  | none =>
    simp only
    rw [markers_append_left "VALUES " _ (by simp [noMarker])]
    exact markers_rowsText d.Values hty hfrag

/-- The snapshot's raw strings hold no `?` and its nested fragments are balanced. -/
theorem markers_statementText (d : mergeData)
    (hInto : noMarker d.Into) (hAlias : noMarker d.ValuesAlias)
    (hCols : ∀ c ∈ d.Columns, noMarker c) (hOn : noMarker d.On)
    (hWhen : ∀ w ∈ d.When, noMarker w)
    (hPre : ∀ p ∈ d.Prefixes, balanced p) (hSuf : ∀ p ∈ d.Suffixes, balanced p)
    (hSel : ∀ s, d.Select = some s → balanced s)
    (hty : ∀ row ∈ d.Values, ∀ c ∈ row, noMarker (cellType c))
    (hfrag : ∀ row ∈ d.Values, ∀ c ∈ row, ∀ s, cellFragment c = some s → balanced s) :
    markers (statementText d) = (statementArgs d).length := by
  have hP : markers (if d.Prefixes.length > 0 then partsText d.Prefixes ++ " " else "")
      = (partsArgs d.Prefixes).length := by
    by_cases h : d.Prefixes.length > 0
    · rw [if_pos h, markers_append_right _ " " (by simp [startsClean]),
        markers_partsText _ hPre]
      simp [markers, countMarkers]
    · have : d.Prefixes = [] := by
        cases hd : d.Prefixes with
        | nil => rfl
        | cons a l => simp [hd] at h
      simp [this, partsArgs, markers, countMarkers]
  have hX : markers (if d.Suffixes.length > 0 then " " ++ partsText d.Suffixes else "")
      = (partsArgs d.Suffixes).length ∧
      startsClean (if d.Suffixes.length > 0 then " " ++ partsText d.Suffixes else "") := by
    by_cases h : d.Suffixes.length > 0
    · rw [if_pos h, markers_append_left " " _ (by simp [noMarker]), markers_partsText _ hSuf]
      refine ⟨rfl, ?_⟩
      simp [startsClean, String.data_append]
    · have : d.Suffixes = [] := by
        cases hd : d.Suffixes with
        | nil => rfl
        | cons a l => simp [hd] at h
      simp [this, partsArgs, markers, countMarkers, startsClean]
  have hA : noMarker (if d.ValuesAlias ≠ "" then " AS " ++ d.ValuesAlias ++ " " else "") := by
    by_cases h : d.ValuesAlias = ""
    · simp [h, noMarker]
    · simp only [ne_eq, h, not_false_eq_true, if_true]
      exact noMarker_append _ _ (noMarker_append _ _ (by simp [noMarker]) hAlias)
        (by simp [noMarker])
  have hC : noMarker (if d.Columns.length > 0 then "(" ++ join "," d.Columns ++ ")" else "") := by
    by_cases h : d.Columns.length > 0
    · rw [if_pos h]
      exact noMarker_append _ _ (noMarker_append _ _ (by simp [noMarker])
        (noMarker_join _ (by simp [noMarker]) _ hCols)) (by simp [noMarker])
    · rw [if_neg h]; simp [noMarker]
  have hO : noMarker (if d.On ≠ "" then " ON " ++ d.On else "") := by
    by_cases h : d.On = ""
    · simp [h, noMarker]
    · simp only [ne_eq, h, not_false_eq_true, if_true]
      exact noMarker_append _ _ (by simp [noMarker]) hOn
  have hW : noMarker (if d.When.length > 0 then " WHEN " ++ join " WHEN " d.When else "") := by
    by_cases h : d.When.length > 0
    · rw [if_pos h]
      exact noMarker_append _ _ (by simp [noMarker])
        (noMarker_join _ (by simp [noMarker]) _ hWhen)
    · rw [if_neg h]; simp [noMarker]
  have hUsing : noMarker " USING (" := by simp [noMarker]
  have hMerge : noMarker "MERGE INTO " := by simp [noMarker]
  have hClose : noMarker ")" := by simp [noMarker]
  unfold statementText statementArgs
  rw [markers_append_right _ _ hX.2, hX.1,
    markers_append_right _ _ (startsClean_of_noMarker _ hW), markers_of_noMarker _ hW,
    markers_append_right _ _ (startsClean_of_noMarker _ hO), markers_of_noMarker _ hO,
    markers_append_right _ _ (startsClean_of_noMarker _ hC), markers_of_noMarker _ hC,
    markers_append_right _ _ (startsClean_of_noMarker _ hA), markers_of_noMarker _ hA,
    markers_append_right _ _ (startsClean_of_noMarker _ hClose),
    markers_of_noMarker _ hClose,
    String.append_assoc _ " USING (" (sourceText d),
    markers_append_right _ _ (startsClean_append_of_ne _ (sourceText d) hUsing (by simp)),
    markers_append_left _ _ hUsing,
    markers_append_right _ _ (startsClean_of_noMarker _ hInto), markers_of_noMarker _ hInto,
    markers_append_right _ _ (startsClean_of_noMarker _ hMerge),
    markers_of_noMarker _ hMerge, hP, markers_sourceText d hSel hty hfrag]
  simp [List.length_append, Nat.add_assoc]

/-! ## The placeholder format -/

/-- The placeholder format is read only by the last step of `ToSql`. -/
theorem ToSql_setPlaceholderFormat (d : mergeData) (f : PlaceholderFormat) :
    (d.setPlaceholderFormat f).ToSql =
      match (d.setPlaceholderFormat Question).ToSql with
      | (t, a, none) => ((f.ReplacePlaceholders t).1, a, (f.ReplacePlaceholders t).2)
      | (_, a, some e) => ("", a, some e) := by
  have e1 : ∀ g, (d.setPlaceholderFormat g).Into = d.Into := fun _ => rfl
  have e2 : ∀ g, (d.setPlaceholderFormat g).Values = d.Values := fun _ => rfl
  have e3 : ∀ g, (d.setPlaceholderFormat g).Select = d.Select := fun _ => rfl
  have e4 : ∀ g, (d.setPlaceholderFormat g).writePrefixes = d.writePrefixes := fun _ => rfl
  have e5 : ∀ g, (d.setPlaceholderFormat g).writeSource = d.writeSource := fun _ => rfl
  have e6 : ∀ g, (d.setPlaceholderFormat g).writeSuffixes = d.writeSuffixes := fun _ => rfl
  have e7 : ∀ g, (d.setPlaceholderFormat g).writeClauses = d.writeClauses := fun _ => rfl
  have e8 : ∀ g, (d.setPlaceholderFormat g).PlaceholderFormat = g := fun _ => rfl
  unfold mergeData.ToSql
  simp only [e1, e2, e3, e4, e5, e6, e7, e8]
  by_cases h0 : d.Into.length = 0
  · simp [h0]
  · rw [if_neg h0, if_neg h0]
    by_cases h1 : d.Values.length = 0 ∧ d.Select.isNone
    · rw [if_pos h1, if_pos h1]
    · rw [if_neg h1, if_neg h1]
      rcases hp : d.writePrefixes "" [] with ⟨w1, a1, x1⟩
      cases x1 with
      | some x => rfl
      | none =>
        simp only
        rcases hsrc : d.writeSource (w1 ++ "MERGE INTO " ++ d.Into ++ " " ++ "USING ") a1
          with ⟨w3, a2, x3⟩
        cases x3 with
        | some x => rfl
        | none =>
          simp only
          rcases hsuf : d.writeSuffixes (d.writeClauses w3) a2 with ⟨w4, a3, x5⟩
          cases x5 with
          | some x => rfl
          | none => rfl

/-- C8: switching only the placeholder format between `Question` and `Dollar` leaves the
returned arguments (and the error) unchanged, and the `Dollar` text is the `Question` text
rewritten once as a whole, its k-th unescaped `?` replaced by `$k`. -/
theorem C8_dollar_of_question (d : mergeData) :
    (d.setPlaceholderFormat Dollar).ToSql.2.1 = (d.setPlaceholderFormat Question).ToSql.2.1 ∧
      (d.setPlaceholderFormat Dollar).ToSql.2.2
        = (d.setPlaceholderFormat Question).ToSql.2.2 ∧
      (d.setPlaceholderFormat Dollar).ToSql.1
        = String.mk (replacePositional ['$'] 0 (d.setPlaceholderFormat Question).ToSql.1.data) := by
  rw [ToSql_setPlaceholderFormat d Dollar]
  rcases hq : (d.setPlaceholderFormat Question).ToSql with ⟨t, a, x⟩
  cases x with
  | none => simp [Dollar]
  | some e =>
    have ht : t = "" := by
      have hQ := ToSql_setPlaceholderFormat d Question
      rw [hq] at hQ
      simpa using congrArg Prod.fst hQ
    subst ht
    simp [replacePositional]

/-- C8, at `Merge("test").Values(1, 2)` of `TestMergeBuilderPlaceholders`: `?,?` under
`Question`, `$1,$2` under `Dollar`, the same arguments; and the rewrite of a text with an
escaped marker. -/
theorem C8_dollar_of_question_witness :
    (((Merge "test").addValues [Value.int 1, Value.int 2]).setPlaceholderFormat Question).ToSql
        = ("MERGE INTO test USING (VALUES (?,?))", [Value.int 1, Value.int 2], none) ∧
      (((Merge "test").addValues [Value.int 1, Value.int 2]).setPlaceholderFormat Dollar).ToSql
        = ("MERGE INTO test USING (VALUES ($1,$2))", [Value.int 1, Value.int 2], none) ∧
      String.mk (replacePositional ['$'] 0 "a ? b ?? c ?".data) = "a $1 b ?? c $2" :=
  ⟨rfl,
    Prod.ext
      ((C8_dollar_of_question ((Merge "test").addValues [Value.int 1, Value.int 2])).2.2.trans
        rfl)
      (Prod.ext
        ((C8_dollar_of_question ((Merge "test").addValues [Value.int 1, Value.int 2])).1.trans
          rfl)
        ((C8_dollar_of_question ((Merge "test").addValues [Value.int 1, Value.int 2])).2.1.trans
          rfl)),
    rfl⟩

/-! ## `SetMap` -/

theorem lexLe_total (a b : List Char) : lexLe a b = true ∨ lexLe b a = true := by
  induction a generalizing b with
  | nil => simp [lexLe]
  | cons c cs ih =>
    cases b with
    | nil => simp [lexLe]
    | cons d ds =>
      rcases lt_trichotomy c d with h | h | h
      · simp [lexLe, h]
      · subst h; simpa [lexLe] using ih ds
      · right; simp [lexLe, h]

theorem lexLe_antisymm (a b : List Char) (h1 : lexLe a b = true) (h2 : lexLe b a = true) :
    a = b := by
  induction a generalizing b with
  | nil =>
    cases b with
    | nil => rfl
    | cons d ds => simp [lexLe] at h2
  | cons c cs ih =>
    cases b with
    | nil => simp [lexLe] at h1
    | cons d ds =>
      rcases lt_trichotomy c d with h | h | h
      · simp [lexLe, h, lt_asymm h] at h2
      · subst h
        simp [lexLe] at h1 h2
        rw [ih ds h1 h2]
      · simp [lexLe, h, lt_asymm h] at h1

theorem lexLe_trans (a b c : List Char) (h1 : lexLe a b = true) (h2 : lexLe b c = true) :
    lexLe a c = true := by
  induction a generalizing b c with
  | nil => simp [lexLe]
  | cons x xs ih =>
    cases b with
    | nil => simp [lexLe] at h1
    | cons y ys =>
      cases c with
      | nil => simp [lexLe] at h2
      | cons z zs =>
        rcases lt_trichotomy x y with h | h | h
        · rcases lt_trichotomy y z with g | g | g
          · simp [lexLe, lt_trans h g]
          · subst g; simp [lexLe, h]
          · simp [lexLe, g, lt_asymm g] at h2
        · subst h
          rcases lt_trichotomy x z with g | g | g
          · simp [lexLe, g]
          · subst g
            simp [lexLe] at h1 h2 ⊢
            exact ih ys zs h1 h2
          · simp [lexLe, g, lt_asymm g] at h2
        · simp [lexLe, h, lt_asymm h] at h1

theorem sortStrings_perm (l : List String) : (sortStrings l).Perm l :=
  List.perm_insertionSort stringLe l

theorem sortStrings_sorted (l : List String) : (sortStrings l).Sorted stringLe := by
  haveI : IsTotal String stringLe := ⟨fun a b => lexLe_total a.data b.data⟩
  haveI : IsTrans String stringLe :=
    ⟨fun a b c h1 h2 => lexLe_trans a.data b.data c.data h1 h2⟩
  exact List.sorted_insertionSort stringLe l

theorem sortStrings_strict (l : List String) (h : l.Nodup) :
    (sortStrings l).Sorted stringLt := by
  have hs := sortStrings_sorted l
  have hn : (sortStrings l).Nodup := (sortStrings_perm l).nodup_iff.mpr h
  unfold List.Sorted at hs ⊢
  exact (hs.and hn).imp (fun h => ⟨h.1, h.2⟩)

theorem sortStrings_congr (l1 l2 : List String) (h : l1.Perm l2) :
    sortStrings l1 = sortStrings l2 := by
  haveI : IsAntisymm String stringLe :=
    ⟨fun a b h1 h2 => String.ext (lexLe_antisymm a.data b.data h1 h2)⟩
  exact List.eq_of_perm_of_sorted
    (((sortStrings_perm l1).trans h).trans (sortStrings_perm l2).symm)
    (sortStrings_sorted l1) (sortStrings_sorted l2)

theorem mapIndex_of_mem (m : List (String × Value)) (hm : (m.map Prod.fst).Nodup)
    (k : String) (v : Value) (h : (k, v) ∈ m) : mapIndex m k = v := by
  induction m with
  | nil => simp at h
  | cons kv m ih =>
    obtain ⟨k1, v1⟩ := kv
    simp only [List.map_cons, List.nodup_cons] at hm
    rcases List.mem_cons.mp h with h | h
    · cases h
      simp [mapIndex]
    · have hne : k1 ≠ k := by
        intro hk
        subst hk
        exact hm.1 (List.mem_map.mpr ⟨(k1, v), h, rfl⟩)
      simp [mapIndex, hne, ih hm.2 h]

theorem mapIndex_congr (m1 m2 : List (String × Value)) (hm : (m2.map Prod.fst).Nodup)
    (h : m1.Perm m2) (k : String) (hk : k ∈ m2.map Prod.fst) :
    mapIndex m1 k = mapIndex m2 k := by
  obtain ⟨kv, hkv, hfst⟩ := List.mem_map.mp hk
  obtain ⟨k2, v⟩ := kv
  simp only at hfst
  subst hfst
  have hm1 : (m1.map Prod.fst).Nodup := (h.map Prod.fst).nodup_iff.mpr hm
  rw [mapIndex_of_mem m2 hm k2 v hkv, mapIndex_of_mem m1 hm1 k2 v (h.mem_iff.mpr hkv)]

/-- C9: for every builder `b` and every map `m` (its entries listed in iteration order,
the keys distinct), `SetMap(b, m)` has `Columns` equal to the keys of `m` in strictly
ascending order and `Values` equal to one row whose cells are the values of `m` at the
sorted keys; both replace what `b` held, and the result does not depend on the order in
which the map is visited. -/
theorem C9_SetMap_sorted (b : mergeData) (m : List (String × Value))
    (hm : (m.map Prod.fst).Nodup) :
    (b.SetMap m).Columns.Perm (m.map Prod.fst) ∧
      (b.SetMap m).Columns.Sorted stringLt ∧
      (b.SetMap m).Values = [(b.SetMap m).Columns.map (mapIndex m)] ∧
      (∀ k v, (k, v) ∈ m → mapIndex m k = v) ∧
      (∀ b2 : mergeData, (b2.SetMap m).Columns = (b.SetMap m).Columns ∧
        (b2.SetMap m).Values = (b.SetMap m).Values) ∧
      (∀ m2 : List (String × Value), m2.Perm m → b.SetMap m2 = b.SetMap m) := by
  refine ⟨sortStrings_perm _, sortStrings_strict _ hm, rfl,
    fun k v h => mapIndex_of_mem m hm k v h, fun b2 => ⟨rfl, rfl⟩, ?_⟩
  intro m2 h
  have hc : sortStrings (m2.map Prod.fst) = sortStrings (m.map Prod.fst) :=
    sortStrings_congr _ _ (h.map Prod.fst)
  have hv : (sortStrings (m.map Prod.fst)).map (mapIndex m2)
      = (sortStrings (m.map Prod.fst)).map (mapIndex m) := by
    apply List.map_congr_left
    intro k hk
    exact mapIndex_congr m2 m hm h k ((sortStrings_perm _).mem_iff.mp hk)
  simp only [mergeData.SetMap, hc, hv]

/-- C9, at `Merge("table").SetMap({field1: 1, field2: 2, field3: 3})` of
`TestMergeBuilderSetMap`, the map visited in the order field2, field3, field1: the keys are
distinct, the render is the text and arguments of the test, and columns and rows set
before the call are replaced. -/
theorem C9_SetMap_sorted_witness :
    (testSetMapClauses.map Prod.fst).Nodup ∧
      ((Merge "table").SetMap testSetMapClauses).ToSql
        = ("MERGE INTO table USING (VALUES (?,?,?))(field1,field2,field3)",
            [Value.int 1, Value.int 2, Value.int 3], none) ∧
      ((((Merge "table").addColumns ["old"]).addValues [Value.int 9]).SetMap
          testSetMapClauses).Columns = ["field1", "field2", "field3"] ∧
      ((((Merge "table").addColumns ["old"]).addValues [Value.int 9]).SetMap
          testSetMapClauses).Values = [[Value.int 1, Value.int 2, Value.int 3]] :=
  ⟨by decide, rfl,
    ((C9_SetMap_sorted (Merge "table") testSetMapClauses (by decide)).2.2.2.2.1
      (((Merge "table").addColumns ["old"]).addValues [Value.int 9])).1.trans rfl,
    ((C9_SetMap_sorted (Merge "table") testSetMapClauses (by decide)).2.2.2.2.1
      (((Merge "table").addColumns ["old"]).addValues [Value.int 9])).2.trans rfl⟩

/-! ## `Select` before `Values` -/

/-- C10: on a snapshot with a sub-select set, `ToSql` returns the same text, arguments and
error as the snapshot with all value rows removed; and when the table is not empty and the
prefixes, the sub-select and the suffixes render, the text under the `Question` dialect has
the sub-select's text as the `USING` source, with no `VALUES`, and the arguments are those
of the prefixes, the sub-select and the suffixes. -/
theorem C10_Select_over_Values (d : mergeData) (sel : Sqlizer) (hSel : d.Select = some sel) :
    d.ToSql = ({ d with Values := [] } : mergeData).ToSql ∧
      (d.Into ≠ "" → sel.err = none → (∀ p ∈ d.Prefixes, p.err = none) →
        (∀ p ∈ d.Suffixes, p.err = none) → d.PlaceholderFormat = Question →
        d.ToSql =
          ((if d.Prefixes.length > 0 then partsText d.Prefixes ++ " " else "")
              ++ "MERGE INTO " ++ d.Into ++ " USING (" ++ sel.sql ++ ")"
              ++ (if d.ValuesAlias ≠ "" then " AS " ++ d.ValuesAlias ++ " " else "")
              ++ (if d.Columns.length > 0 then "(" ++ join "," d.Columns ++ ")" else "")
              ++ (if d.On ≠ "" then " ON " ++ d.On else "")
              ++ (if d.When.length > 0 then " WHEN " ++ join " WHEN " d.When else "")
              ++ (if d.Suffixes.length > 0 then " " ++ partsText d.Suffixes else ""),
            partsArgs d.Prefixes ++ sel.args ++ partsArgs d.Suffixes,
            none)) := by
  constructor
  · simp [mergeData.ToSql, mergeData.writePrefixes, mergeData.writeSource,
      mergeData.appendSelectToSQL, mergeData.writeClauses, mergeData.writeSuffixes, hSel]
  · intro hInto hErr hPre hSuf hFmt
    have hr : renders d :=
      ⟨hInto, Or.inr (by simp [hSel]), hPre, by simp [sourceOk, hSel, hErr], hSuf⟩
    rw [ToSql_of_renders d hr, hFmt]
    simp [-String.reduceAppend, Question, statementText, statementArgs, sourceText, sourceArgs,
      hSel]

/-- C10, at the builder of `TestMergeBuilderSelect`: the render is the text and the
argument of the test; and with a value row added whose cell fails to render, the render
is still the same. -/
theorem C10_Select_over_Values_witness :
    testSelectBuilder.Select = some testSelect ∧
      testSelectBuilder.ToSql
        = ("MERGE INTO table2 USING (SELECT field1 FROM table1 WHERE field1 = ?) AS vals (field1) ON table2.field1 = vals.field1",
            [Value.int 1], none) ∧
      (testSelectBuilder.addValues [(failingExpr "boom").toValue, Value.int 7]).ToSql
        = testSelectBuilder.ToSql :=
  ⟨rfl, rfl,
    (C10_Select_over_Values
      (testSelectBuilder.addValues [(failingExpr "boom").toValue, Value.int 7]) testSelect
      rfl).1.trans rfl⟩

/-! ## The fluent calls -/

/-- C11, as stated, fails: `Merge("table").SetMap({field1: 1, field2: 2, field3: 3})`
differs from its receiver in two fields, `Columns` and `Values`. -/
theorem C11_fluent_frame_counterexample :
    ((Merge "table").SetMap testSetMapClauses).Columns ≠ (Merge "table").Columns ∧
      ((Merge "table").SetMap testSetMapClauses).Values ≠ (Merge "table").Values :=
  ⟨by decide, by simp [mergeData.SetMap, Merge]⟩

/-- C11, amended: every fluent call other than `SetMap` returns a snapshot that differs
from the receiver in one field only, which is set, appended to by one item, or extended by
the given items (for `Columns` and `Values`: when the receiver's field was not stored by
`SetMap`); `SetMap` returns a snapshot that differs from the receiver in the two fields
`Columns` and `Values` only. -/
theorem C11_fluent_frame (b : mergeData) :
    (∀ f, sameOutside [Field.PlaceholderFormat] (b.setPlaceholderFormat f) b ∧
      (b.setPlaceholderFormat f).PlaceholderFormat = f) ∧
    (∀ r, sameOutside [Field.RunWith] (b.setRunWith r) b ∧
      (b.setRunWith r).RunWith = some r) ∧
    (∀ sql args, sameOutside [Field.Prefixes] (b.addPrefix sql args) b ∧
      (b.addPrefix sql args).Prefixes = b.Prefixes ++ [Expr sql args]) ∧
    (∀ e, sameOutside [Field.Prefixes] (b.PrefixExpr e) b ∧
      (b.PrefixExpr e).Prefixes = b.Prefixes ++ [e]) ∧
    (∀ t, sameOutside [Field.Into] (b.setInto t) b ∧ (b.setInto t).Into = t) ∧
    (∀ a, sameOutside [Field.ValuesAlias] (b.setValuesAlias a) b ∧
      (b.setValuesAlias a).ValuesAlias = a) ∧
    (∀ c, sameOutside [Field.On] (b.setOn c) b ∧ (b.setOn c).On = c) ∧
    (∀ w, sameOutside [Field.When] (b.addWhen w) b ∧ (b.addWhen w).When = b.When ++ [w]) ∧
    (∀ cs, sameOutside [Field.Columns] (b.addColumns cs) b ∧
      (b.ColumnsBySet = false → (b.addColumns cs).Columns = b.Columns ++ cs)) ∧
    (∀ row, sameOutside [Field.Values] (b.addValues row) b ∧
      (b.ValuesBySet = false → (b.addValues row).Values = b.Values ++ [row])) ∧
    (∀ sql args, sameOutside [Field.Suffixes] (b.addSuffix sql args) b ∧
      (b.addSuffix sql args).Suffixes = b.Suffixes ++ [Expr sql args]) ∧
    (∀ e, sameOutside [Field.Suffixes] (b.SuffixExpr e) b ∧
      (b.SuffixExpr e).Suffixes = b.Suffixes ++ [e]) ∧
    (∀ sb, sameOutside [Field.Select] (b.setSelect sb) b ∧
      (b.setSelect sb).Select = some sb) ∧
    (∀ m, sameOutside [Field.Columns, Field.Values] (b.SetMap m) b ∧
      (b.SetMap m).Columns = sortStrings (m.map Prod.fst) ∧
      (b.SetMap m).Values = [(sortStrings (m.map Prod.fst)).map (mapIndex m)]) := by
  refine ⟨?_, ?_, ?_, ?_, ?_, ?_, ?_, ?_, ?_, ?_, ?_, ?_, ?_, ?_⟩ <;> intros <;>
    simp [sameOutside, mergeData.setPlaceholderFormat, mergeData.setRunWith,
      mergeData.addPrefix, mergeData.PrefixExpr, mergeData.setInto, mergeData.setValuesAlias,
      mergeData.setOn, mergeData.addWhen, mergeData.addColumns, mergeData.addValues,
      mergeData.addSuffix, mergeData.SuffixExpr, mergeData.setSelect, mergeData.SetMap]
  · intro h; simp [h]
  · intro h; simp [h]

/-- C11, amended, at `Merge("t").Values(1)`, whose `Values` is a builder list: a further
`Values(2)` leaves every other field as it was and appends the row. -/
theorem C11_fluent_frame_witness :
    ((Merge "t").addValues [Value.int 1]).ValuesBySet = false ∧
      (((Merge "t").addValues [Value.int 1]).addValues [Value.int 2]).Values
        = [[Value.int 1], [Value.int 2]] :=
  ⟨rfl,
    ((C11_fluent_frame ((Merge "t").addValues [Value.int 1])).2.2.2.2.2.2.2.2.2.1
      [Value.int 2]).2 rfl⟩

/-! ## The value rows -/

theorem cellText_eq_spec (c : Value) (h : ∀ ty v, c = Value.typed ty v → ty ≠ "") :
    cellText c = specCellText c := by
  cases c with
  | nil => rfl
  | int n => rfl
  | str t => rfl
  | sqlizer q a e => rfl
  | typed ty v =>
    have hty : ty ≠ "" := h ty v rfl
    cases v with
    | nil => simp [cellText, specCellText, specUnwrappedText, hty]
    | int n => simp [cellText, specCellText, specUnwrappedText, hty]
    | str t => simp [cellText, specCellText, specUnwrappedText, hty]
    | typed ty2 v2 => simp [cellText, specCellText, specUnwrappedText, hty]
    | sqlizer q a e => simp [cellText, specCellText, specUnwrappedText, hty]

theorem rowsText_eq_spec (rows : List (List Value))
    (h : ∀ row ∈ rows, ∀ c ∈ row, ∀ ty v, c = Value.typed ty v → ty ≠ "") :
    rowsText rows = specRowsText rows := by
  unfold rowsText specRowsText
  congr 1
  apply List.map_congr_left
  intro row hrow
  unfold rowText
  congr 3
  apply List.map_congr_left
  intro c hc
  exact cellText_eq_spec c (h row hrow c hc)

/-- C12, as stated, fails: for the one row `(Typed{Type: "", Value: 1})`,
`appendValuesToSQL` writes `VALUES (?)`, not the `VALUES (?::)` of the rendering followed
by `::T`. -/
theorem C12_values_text_counterexample :
    emptyTypeBuilder.appendValuesToSQL "" [] = ("VALUES (?)", [Value.int 1], none) ∧
      "VALUES " ++ specRowsText emptyTypeBuilder.Values = "VALUES (?::)" :=
  ⟨rfl, by decide⟩

/-- C12, amended: for a non-empty list of value rows whose nested fragments render without
error and whose `Typed` cells all have a non-empty type name, `appendValuesToSQL` writes
`VALUES ` and the rows joined by `,`, each row its cells joined by `,` in brackets, a cell
being `?` for a scalar, the fragment's text for a fragment, and for a `Typed` wrapper the
rendering of the unwrapped value followed by `::T`; the arguments appended are the scalars
and the fragments' arguments in order, never a wrapper itself. A `Typed` cell with an empty
type name renders as the unwrapped value alone. -/
theorem C12_values_text (d : mergeData) (w : String) (args : List Value)
    (hRows : d.Values ≠ [])
    (hCells : ∀ row ∈ d.Values, ∀ c ∈ row, cellErr c = none)
    (hTypes : ∀ row ∈ d.Values, ∀ c ∈ row, ∀ ty v, c = Value.typed ty v → ty ≠ "") :
    d.appendValuesToSQL w args
        = (w ++ "VALUES " ++ specRowsText d.Values, args ++ rowsArgs d.Values, none) ∧
      (∀ v a, cellErr (Value.typed "" v) = none →
        renderCell (Value.typed "" v) a
          = (specUnwrappedText v, a ++ cellArgs (Value.typed "" v), none)) := by
  constructor
  · have hlen : ¬ d.Values.length = 0 := fun h0 => hRows (List.length_eq_zero.mp h0)
    unfold mergeData.appendValuesToSQL
    rw [if_neg hlen]
    simp only [renderRows_ok d.Values hCells, List.nil_append]
    rw [← rowsText_eq_spec d.Values hTypes]
    rfl
  · intro v a hv
    rw [renderCell_ok _ hv]
    cases v with
    | nil => rfl
    | int n => rfl
    | str t => rfl
    | typed ty2 v2 => rfl
    | sqlizer q a2 e => rfl

/-- C12, amended, at the rows `(1, Typed{"int", 2})`, `(frag)` with `frag` rendering to
`now()`: the text is `VALUES (?,?::int),(now())` and the arguments are `1, 2`. -/
theorem C12_values_text_witness :
    typedRowsBuilder.Values ≠ [] ∧
      typedRowsBuilder.appendValuesToSQL "" []
        = ("VALUES (?,?::int),(now())", [Value.int 1, Value.int 2], none) :=
  ⟨by simp [typedRowsBuilder, mergeData.addValues],
    ((C12_values_text typedRowsBuilder "" []
      (by simp [typedRowsBuilder, mergeData.addValues])
      (by
        intro row hrow c hc
        simp only [typedRowsBuilder, mergeData.addValues, Merge, builderList,
          Bool.false_eq_true, if_false, List.nil_append,
          List.cons_append, List.mem_cons, List.mem_singleton, List.not_mem_nil,
          or_false] at hrow
        rcases hrow with hrow | hrow
        · subst hrow
          simp only [List.mem_cons, List.mem_singleton, List.not_mem_nil, or_false] at hc
          rcases hc with hc | hc <;> (subst hc; rfl)
        · subst hrow
          simp only [List.mem_singleton] at hc
          subst hc; rfl)
      (by
        intro row hrow c hc ty v hcv
        simp only [typedRowsBuilder, mergeData.addValues, Merge, builderList,
          Bool.false_eq_true, if_false, List.nil_append,
          List.cons_append, List.mem_cons, List.mem_singleton, List.not_mem_nil,
          or_false] at hrow
        rcases hrow with hrow | hrow
        · subst hrow
          simp only [List.mem_cons, List.mem_singleton, List.not_mem_nil, or_false] at hc
          rcases hc with hc | hc
          · subst hc; cases hcv
          · subst hc; cases hcv; decide
        · subst hrow
          simp only [List.mem_singleton] at hc
          subst hc; cases hcv)).1).trans rfl⟩

/-- C13: at `Merge("t").Prefix("WITH p AS ?", 0).Select(sb)` with a failing `sb`, `ToSql`
returns the error of `sb` and the empty text, but the argument list `[0]` of the prefix,
not an empty one; on the sibling path, a failing value cell after the same prefix, the
argument list returned is empty. -/
theorem C13_failing_select_keeps_args :
    failingSelectBuilder.ToSql
        = ("", [Value.int 0],
            some (Err.other "select statements must have at least one result column")) ∧
      failingCellBuilder.ToSql = ("", [], some (Err.other "boom")) :=
  ⟨rfl, rfl⟩

/-! ## Running without a runner, or with one that lacks an interface -/

/-- C14: on a snapshot with no runner bound, `Exec`, `Query`, `QueryRow` (and `Scan`
through it), `ExecContext`, `QueryContext` and `QueryRowContext` (and `ScanContext` through
it) all fail with `RunnerNotSet`, whatever the rest of the snapshot holds. -/
theorem C14_runner_not_set (d : mergeData) (h : d.RunWith = none) :
    d.Exec = Except.error Err.RunnerNotSet ∧
      d.Query = Except.error Err.RunnerNotSet ∧
      d.QueryRow = Except.error Err.RunnerNotSet ∧
      d.Scan = Except.error Err.RunnerNotSet ∧
      d.ExecContext = Except.error Err.RunnerNotSet ∧
      d.QueryContext = Except.error Err.RunnerNotSet ∧
      d.QueryRowContext = Except.error Err.RunnerNotSet ∧
      d.ScanContext = Except.error Err.RunnerNotSet := by
  simp [mergeData.Exec, mergeData.Query, mergeData.QueryRow, mergeData.Scan,
    mergeData.ExecContext, mergeData.QueryContext, mergeData.QueryRowContext,
    mergeData.ScanContext, h]

/-- C14, at `Merge("test").Values(1)` of `TestMergeBuilderNoRunner`, and at `Merge("")`,
whose render fails with `ErrNoTable`: `RunnerNotSet` comes first. -/
theorem C14_runner_not_set_witness :
    ((Merge "test").addValues [Value.int 1]).RunWith = none ∧
      ((Merge "test").addValues [Value.int 1]).Exec = Except.error Err.RunnerNotSet ∧
      (Merge "").ToSql.2.2 = some Err.ErrNoTable ∧
      (Merge "").Exec = Except.error Err.RunnerNotSet ∧
      (Merge "").ScanContext = Except.error Err.RunnerNotSet :=
  ⟨rfl, (C14_runner_not_set ((Merge "test").addValues [Value.int 1]) rfl).1, rfl,
    (C14_runner_not_set (Merge "") rfl).1, (C14_runner_not_set (Merge "") rfl).2.2.2.2.2.2.2⟩

/-- C17, as stated, fails: with a bound runner that is neither a `QueryRowerContext` nor a
`QueryerContext`, `QueryRowContext` (and `ScanContext`) fails with `RunnerNotQueryRunner`,
not with `NoContextSupport`. -/
theorem C17_no_context_support_counterexample :
    (((Merge "test").addValues [Value.int 1]).setRunWith plainRunner).QueryRowContext
        = Except.error Err.RunnerNotQueryRunner ∧
      (((Merge "test").addValues [Value.int 1]).setRunWith plainRunner).ScanContext
        = Except.error Err.RunnerNotQueryRunner ∧
      Err.RunnerNotQueryRunner ≠ Err.NoContextSupport :=
  ⟨rfl, rfl, by decide⟩

/-- C17, amended: with a bound runner, `ExecContext` fails with `NoContextSupport` when the
runner is not an `ExecerContext`, `QueryContext` when it is not a `QueryerContext`, and
`QueryRowContext` (seen through `ScanContext`) when it is not a `QueryRowerContext` but is
a `QueryerContext`; when it is neither, `QueryRowContext` fails with
`RunnerNotQueryRunner`. -/
theorem C17_no_context_support (d : mergeData) (r : BaseRunner) (h : d.RunWith = some r) :
    (r.isExecerContext = false → d.ExecContext = Except.error Err.NoContextSupport) ∧
      (r.isQueryerContext = false → d.QueryContext = Except.error Err.NoContextSupport) ∧
      (r.isQueryRowerContext = false → r.isQueryerContext = true →
        d.QueryRowContext = Except.error Err.NoContextSupport ∧
          d.ScanContext = Except.error Err.NoContextSupport) ∧
      (r.isQueryRowerContext = false → r.isQueryerContext = false →
        d.QueryRowContext = Except.error Err.RunnerNotQueryRunner ∧
          d.ScanContext = Except.error Err.RunnerNotQueryRunner) := by
  refine ⟨?_, ?_, ?_, ?_⟩
  · intro h1
    simp [mergeData.ExecContext, h, h1]
  · intro h1
    simp [mergeData.QueryContext, h, h1]
  · intro h1 h2
    simp [mergeData.QueryRowContext, mergeData.ScanContext, h, h1, h2]
  · intro h1 h2
    simp [mergeData.QueryRowContext, mergeData.ScanContext, h, h1, h2]

/-- C17, amended, at `Merge("test").Values(1)` bound to a runner that is a `QueryerContext`
only: all three context calls fail with `NoContextSupport`. -/
theorem C17_no_context_support_witness :
    (((Merge "test").addValues [Value.int 1]).setRunWith ⟨true, false, true, false⟩).RunWith
        = some ⟨true, false, true, false⟩ ∧
      (((Merge "test").addValues [Value.int 1]).setRunWith
          ⟨true, false, true, false⟩).ExecContext = Except.error Err.NoContextSupport ∧
      (((Merge "test").addValues [Value.int 1]).setRunWith
          ⟨true, false, true, false⟩).ScanContext = Except.error Err.NoContextSupport :=
  ⟨rfl,
    (C17_no_context_support
      (((Merge "test").addValues [Value.int 1]).setRunWith ⟨true, false, true, false⟩)
      ⟨true, false, true, false⟩ rfl).1 rfl,
    ((C17_no_context_support
      (((Merge "test").addValues [Value.int 1]).setRunWith ⟨true, false, true, false⟩)
      ⟨true, false, true, false⟩ rfl).2.2.1 rfl rfl).2⟩

/-! ## The panicking render -/

/-- C18: `MustSql(b)` panics exactly when `ToSql(b)` returns an error, with that error as
the panic value; when `ToSql(b)` succeeds, `MustSql(b)` returns its text and arguments;
and `Merge("").MustSql()` panics. -/
theorem C18_MustSql (b : mergeData) :
    (∀ e, b.MustSql = Except.error e ↔ b.ToSql.2.2 = some e) ∧
      (b.ToSql.2.2 = none → b.MustSql = Except.ok (b.ToSql.1, b.ToSql.2.1)) ∧
      (Merge "").MustSql = Except.error Err.ErrNoTable := by
  refine ⟨?_, ?_, rfl⟩
  · intro e
    unfold mergeData.MustSql
    rcases b.ToSql with ⟨t, a, x⟩
    cases x with
    | none => simp
    | some e1 => simp
  · intro h
    unfold mergeData.MustSql
    rcases hb : b.ToSql with ⟨t, a, x⟩
    rw [hb] at h
    cases x with
    | none => rfl
    | some e1 => simp at h

/-! ## The errors of `ToSql` -/

/-- C19: an error returned by `ToSql` is `ErrNoTable` of the first check, `ErrNoValues` of
the second check, the error of a nested fragment (prefix, sub-select, cell, suffix) or the
error of the placeholder rewrite; and once the checks have passed, an error of the source
step is the error of the sub-select or of a cell, never that of the guards of
`appendValuesToSQL` and `appendSelectToSQL`, since the first is called only without a
sub-select and then with at least one row, and the second only with a sub-select. -/
theorem C19_ToSql_errors (d : mergeData) (e : Err) (h : d.ToSql.2.2 = some e) :
    ((d.Into = "" ∧ e = Err.ErrNoTable) ∨
      (d.Into ≠ "" ∧ d.Values = [] ∧ d.Select = none ∧ e = Err.ErrNoValues) ∨
      (∃ p ∈ d.Prefixes, p.err = some e) ∨
      (∃ s, d.Select = some s ∧ s.err = some e) ∨
      (d.Select = none ∧ ∃ row ∈ d.Values, ∃ c ∈ row, cellErr c = some e) ∨
      (∃ p ∈ d.Suffixes, p.err = some e) ∨
      (∃ t, (d.PlaceholderFormat.ReplacePlaceholders t).2 = some e)) ∧
    (¬ (d.Values.length = 0 ∧ d.Select.isNone) →
      (d.Select = none → d.Values ≠ []) ∧
      ∀ w args e2, (d.writeSource w args).2.2 = some e2 →
        (∃ s, d.Select = some s ∧ s.err = some e2) ∨
          (d.Select = none ∧ ∃ row ∈ d.Values, ∃ c ∈ row, cellErr c = some e2)) := by
  refine ⟨ToSql_err_cases d e h, fun hv => ⟨?_, fun w args e2 h2 => writeSource_err d w args e2 hv h2⟩⟩
  intro hs hvals
  exact hv ⟨by simp [hvals], by simp [hs]⟩

/-- C19, at the builder with a prefix and a failing cell: the error is that of the cell,
and the value rows handed to `appendValuesToSQL` are not empty; at `Merge("x")` the error
is `ErrNoValues` of the second check. -/
theorem C19_ToSql_errors_witness :
    failingCellBuilder.ToSql.2.2 = some (Err.other "boom") ∧
      failingCellBuilder.Values ≠ [] ∧
      (Merge "x").ToSql.2.2 = some Err.ErrNoValues :=
  ⟨rfl,
    ((C19_ToSql_errors failingCellBuilder (Err.other "boom") rfl).2
      (by simp [failingCellBuilder, mergeData.addValues])).1 rfl,
    rfl⟩

/-! ## The accumulating calls -/

/-- C20: at `Merge("t").SetMap({a: 1}).Values(2)` the `Values` call does not append its row
to the row of `SetMap` but replaces it, and the render is
`MERGE INTO t USING (VALUES (?))(a)` with the argument `2` alone; likewise
`Merge("t").SetMap({a: 1}).Columns("b")` keeps the column `b` alone. From a builder
that `SetMap` has not touched, the calls do accumulate in call order. -/
theorem C20_append_after_SetMap :
    setMapValuesBuilder.Values = [[Value.int 2]] ∧
      setMapValuesBuilder.ToSql
        = ("MERGE INTO t USING (VALUES (?))(a)", [Value.int 2], none) ∧
      setMapColumnsBuilder.Columns = ["b"] ∧
      setMapColumnsBuilder.ToSql
        = ("MERGE INTO t USING (VALUES (?))(b)", [Value.int 1], none) ∧
      (((Merge "t").addColumns ["a"]).addColumns ["b"]).Columns = ["a", "b"] ∧
      chainedBuilder.ToSql
        = ("P1 P2 ? MERGE INTO t USING (VALUES (?),(?)) WHEN A WHEN B S1 S2",
            [Value.int 0, Value.int 1, Value.int 2], none) ∧
      ((Merge "t").addValues []).ToSql = ("MERGE INTO t USING (VALUES ())", [], none) :=
  ⟨rfl, rfl, rfl, rfl, rfl, rfl, rfl⟩

/-! ## The `WHEN` section -/

theorem renders_beforeWhen (d : mergeData) (h : renders d) : renders d.beforeWhen := by
  obtain ⟨h1, h2, h3, h4, _⟩ := h
  exact ⟨h1, h2, h3, h4, by simp [mergeData.beforeWhen]⟩

/-- C15, as stated, fails: at the builder of `TestMergeBuilderToSql` the rendered text is
the one the test expects, with ` WHEN ` before the second clause, while the text before the
`WHEN` section followed by ` WHEN `, the clauses joined with `WHEN ` and the suffix would
read `... c = vals.cWHEN NOT MATCHED ...`. -/
theorem C15_when_section_counterexample :
    testToSqlBuilder.ToSql.1 = testToSqlExpected ∧
      testToSqlBuilder.beforeWhen.ToSql.1 ++ specWhenSection testToSqlBuilder.When
          ++ " " ++ partsText testToSqlBuilder.Suffixes
        = "WITH prefix AS ? MERGE INTO a USING (VALUES (?,?)) AS vals (b,c) ON a.b = vals.b AND a.c = vals.c " ++
          "WHEN MATCHED THEN UPDATE SET b = vals.b, c = vals.c" ++
          "WHEN NOT MATCHED THEN INSERT (b, c) VALUES (vals.b, vals.c) RETURNING a.b" ∧
      testToSqlBuilder.ToSql.1
        ≠ testToSqlBuilder.beforeWhen.ToSql.1 ++ specWhenSection testToSqlBuilder.When
            ++ " " ++ partsText testToSqlBuilder.Suffixes :=
  by
    have h1 : testToSqlBuilder.ToSql.1 = testToSqlExpected := rfl
    have h2 : testToSqlBuilder.beforeWhen.ToSql.1 ++ specWhenSection testToSqlBuilder.When
          ++ " " ++ partsText testToSqlBuilder.Suffixes
        = "WITH prefix AS ? MERGE INTO a USING (VALUES (?,?)) AS vals (b,c) ON a.b = vals.b AND a.c = vals.c " ++
          "WHEN MATCHED THEN UPDATE SET b = vals.b, c = vals.c" ++
          "WHEN NOT MATCHED THEN INSERT (b, c) VALUES (vals.b, vals.c) RETURNING a.b" := rfl
    refine ⟨h1, h2, ?_⟩
    rw [h2, h1]
    simp [testToSqlExpected]

/-- C15, amended: when `ToSql` succeeds under the `Question` dialect on a snapshot with at
least one `WHEN` clause, the rendered text is the text before the `WHEN` section, then
` WHEN ` followed by the clause bodies in call order joined with the separator ` WHEN `
(a space on both sides), then the suffixes. -/
theorem C15_when_section (d : mergeData) (h : d.ToSql.2.2 = none)
    (hFmt : d.PlaceholderFormat = Question) (hWhen : d.When ≠ []) :
    d.ToSql.1 = d.beforeWhen.ToSql.1 ++ " WHEN " ++ join " WHEN " d.When
      ++ (if d.Suffixes.length > 0 then " " ++ partsText d.Suffixes else "") := by
  have hr := renders_of_ToSql_none d h
  have hlen : d.When.length > 0 := List.length_pos.mpr hWhen
  have hFmt2 : d.beforeWhen.PlaceholderFormat = Question := hFmt
  rw [ToSql_of_renders d hr, ToSql_of_renders _ (renders_beforeWhen d hr), hFmt, hFmt2]
  simp [-String.reduceAppend, Question, statementText, mergeData.beforeWhen, sourceText,
    hlen, String.append_assoc]

/-- C15, amended, at the builder of `TestMergeBuilderToSql`. -/
theorem C15_when_section_witness :
    testToSqlBuilder.ToSql.2.2 = none ∧ testToSqlBuilder.When ≠ [] ∧
      testToSqlBuilder.ToSql.1
        = "WITH prefix AS ? MERGE INTO a USING (VALUES (?,?)) AS vals (b,c) ON a.b = vals.b AND a.c = vals.c"
          ++ " WHEN " ++ "MATCHED THEN UPDATE SET b = vals.b, c = vals.c" ++ " WHEN "
          ++ "NOT MATCHED THEN INSERT (b, c) VALUES (vals.b, vals.c)" ++ " RETURNING a.b" :=
  ⟨rfl, by decide,
    (C15_when_section testToSqlBuilder rfl rfl (by decide)).trans rfl⟩

/-! ## Spaces between the clauses -/

theorem hasDoubleSpace_append (a b : List Char) :
    hasDoubleSpace (a ++ b)
      = (hasDoubleSpace a || hasDoubleSpace b
          || (a.getLast? == some ' ' && b.head? == some ' ')) := by
  induction a with
  | nil => simp [hasDoubleSpace]
  | cons c a ih =>
    cases a with
    | nil =>
      cases b with
      | nil => simp [hasDoubleSpace]
      | cons d b => simp [hasDoubleSpace, Bool.or_comm]
    | cons d a =>
      simp only [List.cons_append] at ih ⊢
      simp only [hasDoubleSpace, ih, List.getLast?_cons_cons, Bool.or_assoc]

theorem data_ne_nil (s : String) (h : s ≠ "") : s.data ≠ [] :=
  fun h0 => h (String.ext h0)

theorem append_ne_empty_left (a b : String) (h : a ≠ "") : a ++ b ≠ "" := by
  intro h0
  have := congrArg String.data h0
  rw [String.data_append] at this
  exact data_ne_nil a h (List.append_eq_nil.mp this).1

theorem append_ne_empty_right (a b : String) (h : b ≠ "") : a ++ b ≠ "" := by
  intro h0
  have := congrArg String.data h0
  rw [String.data_append] at this
  exact data_ne_nil b h (List.append_eq_nil.mp this).2

theorem tidy_append (a b : String) (ha : tidy a) (hb : tidy b) : tidy (a ++ b) := by
  obtain ⟨ha1, ha2, ha3⟩ := ha
  obtain ⟨hb1, hb2, hb3⟩ := hb
  refine ⟨?_, ?_, ?_⟩
  · rw [String.data_append, List.head?_append]
    cases h : a.data.head? with
    | none => simpa [h] using hb1
    | some c => rw [h] at ha1; simpa using ha1
  · rw [String.data_append, List.getLast?_append]
    cases h : b.data.getLast? with
    | none => simpa [h] using ha2
    | some c => rw [h] at hb2; simpa using hb2
  · rw [String.data_append, hasDoubleSpace_append, ha3, hb3]
    cases h : a.data.getLast? with
    | none => simp
    | some c =>
      rw [h] at ha2
      have : c ≠ ' ' := fun hc => ha2 (by rw [hc])
      simp [this]

theorem tidy_space (a b : String) (ha : tidy a) (hb : tidy b) (hane : a ≠ "")
    (hbne : b ≠ "") : tidy (a ++ " " ++ b) := by
  obtain ⟨ha1, ha2, ha3⟩ := ha
  obtain ⟨hb1, hb2, hb3⟩ := hb
  have hda := data_ne_nil a hane
  have hdb := data_ne_nil b hbne
  refine ⟨?_, ?_, ?_⟩
  · simp only [String.data_append, List.head?_append]
    cases h : a.data.head? with
    | none =>
      cases hd : a.data with
      | nil => exact absurd hd hda
      | cons x l => rw [hd] at h; simp at h
    | some c => rw [h] at ha1; simpa using ha1
  · simp only [String.data_append, List.getLast?_append]
    cases h : b.data.getLast? with
    | none =>
      cases hd : b.data with
      | nil => exact absurd hd hdb
      | cons x l => rw [hd] at h; simp at h
    | some c => rw [h] at hb2; simpa using hb2
  · simp only [String.data_append, hasDoubleSpace_append, ha3, hb3, List.getLast?_append]
    cases h : a.data.getLast? with
    | none =>
      cases hd : a.data with
      | nil => exact absurd hd hda
      | cons x l => rw [hd] at h; simp at h
    | some c =>
      rw [h] at ha2
      have hc : c ≠ ' ' := fun hc => ha2 (by rw [hc])
      cases h2 : b.data.head? with
      | none =>
        cases hd : b.data with
        | nil => exact absurd hd hdb
        | cons x l => rw [hd] at h2; simp at h2
      | some e =>
        rw [h2] at hb1
        have he : e ≠ ' ' := fun he => hb1 (by rw [he])
        simp [hasDoubleSpace, hc, he]

theorem tidy_spaceLed (t r : String) (ht : tidy t) (hne : t ≠ "") (hr : spaceLed r) :
    tidy (t ++ r) ∧ t ++ r ≠ "" := by
  refine ⟨?_, append_ne_empty_left t r hne⟩
  rcases hr with hr | ⟨u, hu, htu, hune⟩
  · subst hr; simpa using ht
  · subst hu
    rw [← String.append_assoc]
    exact tidy_space t u ht htu hne hune

theorem spaceLed_append (r1 r2 : String) (h1 : spaceLed r1) (h2 : spaceLed r2) :
    spaceLed (r1 ++ r2) := by
  rcases h1 with h1 | ⟨u, hu, htu, hune⟩
  · subst h1; simpa using h2
  · right
    subst hu
    refine ⟨u ++ r2, String.append_assoc _ _ _, (tidy_spaceLed u r2 htu hune h2).1,
      (tidy_spaceLed u r2 htu hune h2).2⟩

theorem tidy_join_space (sep : String) (hsep : tidy sep) (hsne : sep ≠ "")
    (xs : List String) (hne : xs ≠ []) (h : ∀ x ∈ xs, x ≠ "" ∧ tidy x) :
    tidy (join (" " ++ sep ++ " ") xs) ∧ join (" " ++ sep ++ " ") xs ≠ "" := by
  induction xs with
  | nil => exact absurd rfl hne
  | cons x xs ih =>
    cases xs with
    | nil => simpa [join] using (h x (by simp)).symm
    | cons y ys =>
      have ih2 := ih (by simp) (fun z hz => h z (by simp [hz]))
      have hx := h x (by simp)
      simp only [join]
      have e : x ++ (" " ++ sep ++ " ") ++ join (" " ++ sep ++ " ") (y :: ys)
          = x ++ " " ++ (sep ++ " " ++ join (" " ++ sep ++ " ") (y :: ys)) := by
        simp only [String.append_assoc]
      rw [e]
      have inner := tidy_space sep _ hsep ih2.1 hsne ih2.2
      exact ⟨tidy_space x _ hx.2 inner hx.1 (append_ne_empty_right _ _ ih2.2),
        append_ne_empty_right _ _ (append_ne_empty_right _ _ ih2.2)⟩

theorem tidy_join_one_space (xs : List String) (hne : xs ≠ [])
    (h : ∀ x ∈ xs, x ≠ "" ∧ tidy x) : tidy (join " " xs) ∧ join " " xs ≠ "" := by
  induction xs with
  | nil => exact absurd rfl hne
  | cons x xs ih =>
    cases xs with
    | nil => simpa [join] using (h x (by simp)).symm
    | cons y ys =>
      have ih2 := ih (by simp) (fun z hz => h z (by simp [hz]))
      have hx := h x (by simp)
      simp only [join]
      exact ⟨tidy_space x _ hx.2 ih2.1 hx.1 ih2.2, append_ne_empty_right _ _ ih2.2⟩

theorem tidy_join_comma (xs : List String) (h : ∀ x ∈ xs, tidy x) : tidy (join "," xs) := by
  induction xs with
  | nil => simp [join]; decide
  | cons x xs ih =>
    cases xs with
    | nil => simpa [join] using h x (by simp)
    | cons y ys =>
      have ih2 := ih (fun z hz => h z (by simp [hz]))
      simp only [join]
      exact tidy_append _ _ (tidy_append _ _ (h x (by simp)) (by decide)) ih2

theorem join_ne_empty (sep : String) (x : String) (xs : List String) (hx : x ≠ "") :
    join sep (x :: xs) ≠ "" := by
  rw [join_cons]
  exact append_ne_empty_left _ _ hx

theorem tidy_statement_shape (P I S A C O W X : String)
    (hP : P = "" ∨ ∃ p, P = p ++ " " ∧ tidy p ∧ p ≠ "")
    (hI : tidy I) (hIne : I ≠ "")
    (hK : tidy ("(" ++ S ++ ")" ++ A ++ C))
    (hO : spaceLed O) (hW : spaceLed W) (hX : spaceLed X) :
    tidy (P ++ "MERGE INTO " ++ I ++ " USING (" ++ S ++ ")" ++ A ++ C ++ O ++ W ++ X) := by
  have e1 : ∀ x : String, "MERGE INTO " ++ x = "MERGE INTO" ++ (" " ++ x) := fun x => by
    rw [← String.append_assoc]; rfl
  have e2 : ∀ x : String, " USING (" ++ x = " " ++ ("USING" ++ (" " ++ ("(" ++ x))) :=
    fun x => by
      rw [← String.append_assoc, ← String.append_assoc, ← String.append_assoc]; rfl
  have hKne : "(" ++ S ++ ")" ++ A ++ C ≠ "" :=
    append_ne_empty_left _ _ (append_ne_empty_left _ _
      (append_ne_empty_left _ _ (append_ne_empty_left _ _ (by decide))))
  have hTl : spaceLed (O ++ W ++ X) := spaceLed_append _ _ (spaceLed_append _ _ hO hW) hX
  have h1 := tidy_spaceLed _ _ hK hKne hTl
  have h2 := tidy_space "USING" _ (by decide) h1.1 (by decide) h1.2
  have h2ne : "USING" ++ " " ++ ("(" ++ S ++ ")" ++ A ++ C ++ (O ++ W ++ X)) ≠ "" :=
    append_ne_empty_right _ _ h1.2
  have h3 := tidy_space I _ hI h2 hIne h2ne
  have h3ne : I ++ " " ++ ("USING" ++ " " ++ ("(" ++ S ++ ")" ++ A ++ C ++ (O ++ W ++ X))) ≠ ""
      := append_ne_empty_right _ _ h2ne
  have h4 := tidy_space "MERGE INTO" _ (by decide) h3 (by decide) h3ne
  have h4ne : "MERGE INTO" ++ " " ++
      (I ++ " " ++ ("USING" ++ " " ++ ("(" ++ S ++ ")" ++ A ++ C ++ (O ++ W ++ X)))) ≠ "" :=
    append_ne_empty_right _ _ h3ne
  have e : P ++ "MERGE INTO " ++ I ++ " USING (" ++ S ++ ")" ++ A ++ C ++ O ++ W ++ X
      = P ++ ("MERGE INTO" ++ " " ++
          (I ++ " " ++ ("USING" ++ " " ++ ("(" ++ S ++ ")" ++ A ++ C ++ (O ++ W ++ X))))) := by
    simp only [String.append_assoc, e1, e2]
  rw [e]
  rcases hP with hP | ⟨p, hp, htp, hpne⟩
  · subst hP
    simpa using h4
  · subst hp
    rw [String.append_assoc p " "]
    have := tidy_space p _ htp h4 hpne h4ne
    rw [String.append_assoc] at this
    exact this

theorem tidy_rowText (row : List Value) (h : ∀ c ∈ row, tidy (cellText c)) :
    tidy (rowText row) ∧ rowText row ≠ "" := by
  unfold rowText
  refine ⟨tidy_append _ _ (tidy_append _ _ (by decide) (tidy_join_comma _ ?_)) (by decide),
    append_ne_empty_right _ _ (by decide)⟩
  intro x hx
  obtain ⟨c, hc, hcx⟩ := List.mem_map.mp hx
  rw [← hcx]
  exact h c hc

theorem tidy_sourceText (d : mergeData) (hv : d.Values.length ≠ 0 ∨ d.Select.isSome)
    (hSel : ∀ s, d.Select = some s → tidy s.sql)
    (hCells : ∀ row ∈ d.Values, ∀ c ∈ row, tidy (cellText c)) :
    tidy (sourceText d) := by
  unfold sourceText
  cases hs : d.Select with
  | some sel => exact hSel sel hs
  | none =>
    simp only
    have hlen : d.Values.length ≠ 0 := by
      rcases hv with hv | hv
      · exact hv
      · simp [hs] at hv
    cases hrows : d.Values with
    | nil => simp [hrows] at hlen
    | cons r rs =>
      have hall : ∀ x ∈ (r :: rs).map rowText, tidy x := by
        intro x hx
        obtain ⟨row, hrow, hx2⟩ := List.mem_map.mp hx
        rw [← hx2]
        exact (tidy_rowText row (hCells row (by rw [hrows]; exact hrow))).1
      have hne : rowsText (r :: rs) ≠ "" := by
        unfold rowsText
        rw [List.map_cons]
        exact join_ne_empty _ _ _ (tidy_rowText r (hCells r (by rw [hrows]; simp))).2
      have := tidy_space "VALUES" (rowsText (r :: rs)) (by decide)
        (tidy_join_comma _ hall) (by decide) hne
      exact this

theorem tidy_statementText (d : mergeData) (hr : renders d)
    (hA : d.ValuesAlias = "" ∨ d.Columns ≠ []) (hc : callerTidy d) :
    tidy (statementText d) := by
  obtain ⟨hInto, hv, _, _, _⟩ := hr
  obtain ⟨tInto, tAlias, tCols, tOn, tWhen, tPre, tSuf, tSel, tCells⟩ := hc
  have hS := tidy_sourceText d hv tSel tCells
  have hB : tidy ("(" ++ sourceText d ++ ")") :=
    tidy_append _ _ (tidy_append _ _ (by decide) hS) (by decide)
  have hBne : "(" ++ sourceText d ++ ")" ≠ "" := append_ne_empty_right _ _ (by decide)
  have hCcore : tidy ("(" ++ join "," d.Columns ++ ")") :=
    tidy_append _ _ (tidy_append _ _ (by decide) (tidy_join_comma _ tCols)) (by decide)
  have hCne : "(" ++ join "," d.Columns ++ ")" ≠ "" := append_ne_empty_right _ _ (by decide)
  have hK : tidy ("(" ++ sourceText d ++ ")"
      ++ (if d.ValuesAlias ≠ "" then " AS " ++ d.ValuesAlias ++ " " else "")
      ++ (if d.Columns.length > 0 then "(" ++ join "," d.Columns ++ ")" else "")) := by
    by_cases ha : d.ValuesAlias = ""
    · by_cases hcol : d.Columns.length > 0
      · simp only [ha, ne_eq, not_true_eq_false, if_false, hcol, if_true, String.append_empty]
        exact tidy_append _ _ hB hCcore
      · simp only [ha, ne_eq, not_true_eq_false, if_false, hcol, String.append_empty]
        exact hB
    · have hcols : d.Columns ≠ [] := by
        rcases hA with hA | hA
        · exact absurd hA ha
        · exact hA
      have hcol : d.Columns.length > 0 := List.length_pos.mpr hcols
      simp only [ne_eq, ha, not_false_eq_true, if_true, hcol]
      have h1 := tidy_space d.ValuesAlias _ tAlias hCcore ha hCne
      have h1ne : d.ValuesAlias ++ " " ++ ("(" ++ join "," d.Columns ++ ")") ≠ "" :=
        append_ne_empty_right _ _ hCne
      have h2 := tidy_space "AS" _ (by decide) h1 (by decide) h1ne
      have h3 := tidy_space _ _ hB h2 hBne (append_ne_empty_right _ _ h1ne)
      have e : "(" ++ sourceText d ++ ")" ++ (" AS " ++ d.ValuesAlias ++ " ")
            ++ ("(" ++ join "," d.Columns ++ ")")
          = "(" ++ sourceText d ++ ")" ++ " "
            ++ ("AS" ++ " " ++ (d.ValuesAlias ++ " " ++ ("(" ++ join "," d.Columns ++ ")")))
          := by
        have e0 : ∀ x : String, " AS " ++ x = " " ++ ("AS" ++ (" " ++ x)) := fun x => by
          rw [← String.append_assoc, ← String.append_assoc]; rfl
        simp only [String.append_assoc, e0]
      rw [e]
      exact h3
  have hO : spaceLed (if d.On ≠ "" then " ON " ++ d.On else "") := by
    by_cases h : d.On = ""
    · simp [h, spaceLed]
    · simp only [ne_eq, h, not_false_eq_true, if_true]
      right
      refine ⟨"ON" ++ " " ++ d.On, ?_, tidy_space "ON" _ (by decide) tOn (by decide) h,
        append_ne_empty_right _ _ h⟩
      rw [← String.append_assoc, ← String.append_assoc]; rfl
  have hW : spaceLed (if d.When.length > 0 then " WHEN " ++ join " WHEN " d.When else "") := by
    by_cases h : d.When.length > 0
    · rw [if_pos h]
      right
      have hne : d.When ≠ [] := List.length_pos.mp h
      have hj := tidy_join_space "WHEN" (by decide) (by decide) d.When hne tWhen
      have ej : join (" " ++ "WHEN" ++ " ") d.When = join " WHEN " d.When := rfl
      rw [ej] at hj
      refine ⟨"WHEN" ++ " " ++ join " WHEN " d.When, ?_,
        tidy_space "WHEN" _ (by decide) hj.1 (by decide) hj.2,
        append_ne_empty_right _ _ hj.2⟩
      rw [← String.append_assoc, ← String.append_assoc]; rfl
    · rw [if_neg h]; exact Or.inl rfl
  have hX : spaceLed (if d.Suffixes.length > 0 then " " ++ partsText d.Suffixes else "") := by
    by_cases h : d.Suffixes.length > 0
    · rw [if_pos h]
      right
      have hne : d.Suffixes.map Sqlizer.sql ≠ [] := by
        intro h0
        have := List.length_pos.mp h
        exact this (List.map_eq_nil_iff.mp h0)
      have hj := tidy_join_one_space (d.Suffixes.map Sqlizer.sql) hne (by
        intro x hx
        obtain ⟨q, hq, hqx⟩ := List.mem_map.mp hx
        rw [← hqx]
        exact tSuf q hq)
      exact ⟨partsText d.Suffixes, rfl, hj.1, hj.2⟩
    · rw [if_neg h]; exact Or.inl rfl
  have hP : (if d.Prefixes.length > 0 then partsText d.Prefixes ++ " " else "") = "" ∨
      ∃ q, (if d.Prefixes.length > 0 then partsText d.Prefixes ++ " " else "") = q ++ " " ∧
        tidy q ∧ q ≠ "" := by
    by_cases h : d.Prefixes.length > 0
    · rw [if_pos h]
      right
      have hne : d.Prefixes.map Sqlizer.sql ≠ [] := by
        intro h0
        have := List.length_pos.mp h
        exact this (List.map_eq_nil_iff.mp h0)
      have hj := tidy_join_one_space (d.Prefixes.map Sqlizer.sql) hne (by
        intro x hx
        obtain ⟨q, hq, hqx⟩ := List.mem_map.mp hx
        rw [← hqx]
        exact tPre q hq)
      exact ⟨partsText d.Prefixes, rfl, hj.1, hj.2⟩
    · rw [if_neg h]; exact Or.inl rfl
  unfold statementText
  exact tidy_statement_shape _ _ _ _ _ _ _ _ hP tInto hInto hK hO hW hX

theorem renders_withoutPrefixes (d : mergeData) (h : renders d) :
    renders d.withoutPrefixes := by
  obtain ⟨h1, h2, _, h4, h5⟩ := h
  exact ⟨h1, h2, by simp [mergeData.withoutPrefixes], h4, h5⟩

theorem renders_withoutSuffixes (d : mergeData) (h : renders d) :
    renders d.withoutSuffixes := by
  obtain ⟨h1, h2, h3, h4, _⟩ := h
  exact ⟨h1, h2, h3, h4, by simp [mergeData.withoutSuffixes]⟩

/-- C16, as stated, fails: with an alias and no columns the text ends with a space
(`MERGE INTO t USING (VALUES (?)) AS vals `), an `ON` clause then follows two spaces
(`... AS vals  ON x`) and a suffix follows two spaces (`... AS vals  RETURNING x`), though
no string of the caller holds a space at either end. -/
theorem C16_separators_counterexample :
    aliasOnlyBuilder.ToSql
        = ("MERGE INTO t USING (VALUES (?)) AS vals ", [Value.int 1], none) ∧
      endsWithSpace aliasOnlyBuilder.ToSql.1 ∧
      aliasOnBuilder.ToSql
        = ("MERGE INTO t USING (VALUES (?)) AS vals  ON x", [Value.int 1], none) ∧
      hasDoubleSpace aliasOnBuilder.ToSql.1.data = true ∧
      aliasSuffixBuilder.ToSql
        = ("MERGE INTO t USING (VALUES (?)) AS vals  RETURNING x", [Value.int 1], none) ∧
      hasDoubleSpace aliasSuffixBuilder.ToSql.1.data = true ∧
      tidy "t" ∧ tidy "vals" ∧ tidy "x" ∧ tidy "RETURNING x" :=
  ⟨rfl, by decide, rfl, by decide, rfl, by decide, by decide, by decide, by decide,
    by decide⟩

/-- C16, amended: when `ToSql` succeeds under the `Question` dialect, the text is the one
written clause by clause, an absent `ON`, an empty alias, empty columns and an empty `WHEN`
list contributing no character; the prefixes are followed by exactly one space before
`MERGE INTO`; the suffixes are written after exactly one space following the text rendered
without them; and when the alias is empty or the columns are not, and the strings of the
caller are tidy, the text holds no two consecutive spaces and does not start or end with a
space. -/
theorem C16_separators (d : mergeData) (h : d.ToSql.2.2 = none)
    (hFmt : d.PlaceholderFormat = Question) :
    d.ToSql.1 = statementText d ∧
      (d.Prefixes ≠ [] →
        d.ToSql.1 = partsText d.Prefixes ++ " " ++ d.withoutPrefixes.ToSql.1) ∧
      (d.Suffixes ≠ [] →
        d.ToSql.1 = d.withoutSuffixes.ToSql.1 ++ " " ++ partsText d.Suffixes) ∧
      ((d.ValuesAlias = "" ∨ d.Columns ≠ []) → callerTidy d →
        tidy d.ToSql.1 ∧ ¬ endsWithSpace d.ToSql.1 ∧ hasDoubleSpace d.ToSql.1.data = false)
    := by
  have hr := renders_of_ToSql_none d h
  have hT : d.ToSql.1 = statementText d := by
    rw [ToSql_of_renders d hr, hFmt]; rfl
  refine ⟨hT, ?_, ?_, ?_⟩
  · intro hp
    have hlen : d.Prefixes.length > 0 := List.length_pos.mpr hp
    have hFmt2 : d.withoutPrefixes.PlaceholderFormat = Question := hFmt
    rw [hT, ToSql_of_renders _ (renders_withoutPrefixes d hr), hFmt2]
    simp [-String.reduceAppend, Question, statementText, mergeData.withoutPrefixes,
      sourceText, hlen, String.append_assoc]
  · intro hs
    have hlen : d.Suffixes.length > 0 := List.length_pos.mpr hs
    have hFmt2 : d.withoutSuffixes.PlaceholderFormat = Question := hFmt
    rw [hT, ToSql_of_renders _ (renders_withoutSuffixes d hr), hFmt2]
    simp [-String.reduceAppend, Question, statementText, mergeData.withoutSuffixes,
      sourceText, hlen, String.append_assoc]
  · intro hA hc
    have ht := tidy_statementText d hr hA hc
    rw [hT]
    exact ⟨ht, ht.2.1, ht.2.2⟩

/-- C16, amended, at the builder of `TestMergeBuilderToSql`, which has an alias and
columns: the prefix and the suffix are each set off by one space, and the text is tidy. -/
theorem C16_separators_witness :
    testToSqlBuilder.ToSql.2.2 = none ∧
      testToSqlBuilder.ToSql.1
        = "WITH prefix AS ?" ++ " " ++ testToSqlBuilder.withoutPrefixes.ToSql.1 ∧
      testToSqlBuilder.ToSql.1
        = testToSqlBuilder.withoutSuffixes.ToSql.1 ++ " " ++ "RETURNING a.b" ∧
      tidy testToSqlBuilder.ToSql.1 :=
  ⟨rfl,
    (C16_separators testToSqlBuilder rfl rfl).2.1 (by simp [testToSqlBuilder, mergeData.addSuffix,
      mergeData.SuffixExpr, mergeData.addWhen, mergeData.setOn, mergeData.addColumns,
      mergeData.setValuesAlias, mergeData.addValues, mergeData.addPrefix,
      mergeData.PrefixExpr, Merge]),
    (C16_separators testToSqlBuilder rfl rfl).2.2.1 (by simp [testToSqlBuilder, mergeData.addSuffix,
      mergeData.SuffixExpr, mergeData.addWhen, mergeData.setOn, mergeData.addColumns,
      mergeData.setValuesAlias, mergeData.addValues, mergeData.addPrefix,
      mergeData.PrefixExpr, Merge]),
    ((C16_separators testToSqlBuilder rfl rfl).2.2.2 (Or.inr (by decide))
      (by
        refine ⟨by decide, by decide, by decide, by decide, by decide, ?_, ?_, ?_, ?_⟩
        · intro p hp
          have : p = Expr "WITH prefix AS ?" [Value.int 0] := by
            simpa [testToSqlBuilder, mergeData.addSuffix, mergeData.SuffixExpr,
              mergeData.addWhen, mergeData.setOn, mergeData.addColumns,
              mergeData.setValuesAlias, mergeData.addValues, mergeData.addPrefix,
              mergeData.PrefixExpr, Merge] using hp
          rw [this]; decide
        · intro p hp
          have : p = Expr "RETURNING a.b" [] := by
            simpa [testToSqlBuilder, mergeData.addSuffix, mergeData.SuffixExpr,
              mergeData.addWhen, mergeData.setOn, mergeData.addColumns,
              mergeData.setValuesAlias, mergeData.addValues, mergeData.addPrefix,
              mergeData.PrefixExpr, Merge] using hp
          rw [this]; decide
        · intro s hs
          exact absurd hs (by simp [testToSqlBuilder, mergeData.addSuffix,
            mergeData.SuffixExpr, mergeData.addWhen, mergeData.setOn, mergeData.addColumns,
            mergeData.setValuesAlias, mergeData.addValues, mergeData.addPrefix,
            mergeData.PrefixExpr, Merge])
        · intro row hrow c hc
          have hrow2 : row = [Value.int 1, Value.int 2] := by
            simpa [testToSqlBuilder, mergeData.addSuffix, mergeData.SuffixExpr,
              mergeData.addWhen, mergeData.setOn, mergeData.addColumns,
              mergeData.setValuesAlias, mergeData.addValues, mergeData.addPrefix,
              mergeData.PrefixExpr, Merge] using hrow
          rw [hrow2] at hc
          simp only [List.mem_cons, List.mem_singleton] at hc
          rcases hc with hc | hc | hc
          · rw [hc]; decide
          · rw [hc]; decide
          · exact absurd hc (List.not_mem_nil _))).1⟩

/-! ## Binding the markers of the statement -/

theorem bindMarkers_cons_ne {α : Type} (c : Char) (l : List Char) (ys : List α)
    (hc : c ≠ '?') :
    bindMarkers (c :: l) ys = (Bound.char c :: (bindMarkers l ys).1, (bindMarkers l ys).2) := by
  cases l with
  | nil => simp [bindMarkers, hc]
  | cons d rest => simp [bindMarkers, hc]

theorem bindMarkers_raw {α : Type} (t b : List Char) (ys : List α) (ht : '?' ∉ t) :
    bindMarkers (t ++ b) ys
      = (t.map Bound.char ++ (bindMarkers b ys).1, (bindMarkers b ys).2) := by
  induction t with
  | nil => simp
  | cons c t ih =>
    have hc : c ≠ '?' := fun h => ht (by simp [h])
    have ht2 : '?' ∉ t := fun h => ht (by simp [h])
    rw [List.cons_append, bindMarkers_cons_ne _ _ _ hc, ih ht2]
    simp

theorem Binds_fragment_aux {α : Type} (t : List Char) :
    (∀ xs : List α, countMarkers t = xs.length → Binds t xs (bindMarkers t xs).1) ∧
      ∀ c, ∀ xs : List α, countMarkers (c :: t) = xs.length →
        Binds (c :: t) xs (bindMarkers (c :: t) xs).1 := by
  induction t with
  | nil =>
    refine ⟨?_, ?_⟩
    · intro xs hx b ys hb
      have : xs = [] := List.length_eq_zero.mp (by simpa [countMarkers] using hx.symm)
      subst this
      simp [bindMarkers]
    · intro c xs hx b ys hb
      by_cases hc : c = '?'
      · subst hc
        cases xs with
        | nil => simp [countMarkers] at hx
        | cons x xs =>
          have : xs = [] := List.length_eq_zero.mp (by simpa [countMarkers] using hx.symm)
          subst this
          cases b with
          | nil => simp [bindMarkers]
          | cons e b =>
            have he : e ≠ '?' := fun h => hb (by simp [h])
            simp [bindMarkers, he]
      · have : xs = [] :=
          List.length_eq_zero.mp (by simpa [countMarkers, hc] using hx.symm)
        subst this
        rw [List.cons_append, bindMarkers_cons_ne _ _ _ hc]
        simp [bindMarkers, hc]
  | cons d t ih =>
    refine ⟨ih.2 d, ?_⟩
    intro c xs hx b ys hb
    by_cases hc : c = '?'
    · subst hc
      by_cases hd : d = '?'
      · subst hd
        have hx2 : countMarkers t = xs.length := by simpa [countMarkers] using hx
        have := ih.1 xs hx2 b ys hb
        simp [bindMarkers, this]
      · cases xs with
        | nil => simp [countMarkers, hd] at hx
        | cons x xs =>
          have hx2 : countMarkers (d :: t) = xs.length := by
            simp [countMarkers, hd] at hx
            omega
          have := ih.2 d xs hx2 b ys hb
          simp only [List.cons_append] at this
          simp [bindMarkers, hd, this]
    · have hx2 : countMarkers (d :: t) = xs.length := by
        rw [countMarkers_cons_ne _ _ hc] at hx
        exact hx
      have := ih.2 d xs hx2 b ys hb
      simp only [List.cons_append] at this ⊢
      rw [bindMarkers_cons_ne _ _ _ hc, bindMarkers_cons_ne _ _ _ hc, this]
      simp

theorem Binds_fragment {α : Type} (t : List Char) (xs : List α)
    (h : countMarkers t = xs.length) : Binds t xs (bindMarkers t xs).1 :=
  (Binds_fragment_aux t).1 xs h

theorem Binds_raw {α : Type} (t : List Char) (ht : '?' ∉ t) :
    Binds t ([] : List α) (t.map Bound.char) := by
  intro b ys _
  simpa using bindMarkers_raw t b ys ht

theorem Binds_append {α : Type} (t1 t2 : List Char) (xs1 xs2 : List α)
    (k1 k2 : List (Bound α)) (h1 : Binds t1 xs1 k1) (h2 : Binds t2 xs2 k2)
    (hh : t2.head? ≠ some '?') : Binds (t1 ++ t2) (xs1 ++ xs2) (k1 ++ k2) := by
  intro b ys hb
  have hb2 : (t2 ++ b).head? ≠ some '?' := by
    rw [List.head?_append]
    cases h : t2.head? with
    | none => simpa using hb
    | some c => rw [h] at hh; simpa using hh
  rw [List.append_assoc, List.append_assoc, h1 (t2 ++ b) (xs2 ++ ys) hb2, h2 b ys hb]
  simp

theorem Binds_raw_left {α : Type} (t1 t2 : List Char) (xs : List α) (k : List (Bound α))
    (ht : '?' ∉ t1) (h2 : Binds t2 xs k) : Binds (t1 ++ t2) xs (t1.map Bound.char ++ k) := by
  intro b ys hb
  rw [List.append_assoc, bindMarkers_raw t1 (t2 ++ b) (xs ++ ys) ht, h2 b ys hb]
  simp

theorem Binds_join {β : Type} (sep : String) (hs : noMarker sep) (hne : sep.data ≠ [])
    (f : β → String) (g : β → List Value) (k : β → List (Bound Value)) (l : List β)
    (H : ∀ x ∈ l, Binds (f x).data (g x) (k x)) :
    Binds (join sep (l.map f)).data ((l.map g).flatten) (boundJoin sep (l.map k)) := by
  induction l with
  | nil => simpa [join, boundJoin] using Binds_raw (α := Value) [] (by simp)
  | cons x l ih =>
    cases l with
    | nil => simpa [join, boundJoin] using H x (by simp)
    | cons y r =>
      have ih2 := ih (fun z hz => H z (by simp [hz]))
      have hx := H x (by simp)
      have hh : (sep.data ++ (join sep ((y :: r).map f)).data).head? ≠ some '?' := by
        cases hd : sep.data with
        | nil => exact absurd hd hne
        | cons c cs =>
          intro h
          simp at h
          apply hs
          show '?' ∈ sep.data
          rw [hd, h]
          simp
      have := Binds_append _ _ _ _ _ _ hx (Binds_raw_left sep.data _ _ _ hs ih2) hh
      simpa [join, boundJoin, rawText, String.data_append, List.append_assoc] using this

theorem partsArgs_flatten (ps : List Sqlizer) :
    partsArgs ps = (ps.map Sqlizer.args).flatten := by
  induction ps with
  | nil => rfl
  | cons p ps ih => simp [partsArgs, ih]

theorem rowArgs_flatten (row : List Value) : rowArgs row = (row.map cellArgs).flatten := by
  induction row with
  | nil => rfl
  | cons c row ih => simp [rowArgs, ih]

theorem rowsArgs_flatten (rows : List (List Value)) :
    rowsArgs rows = (rows.map rowArgs).flatten := by
  induction rows with
  | nil => rfl
  | cons r rows ih => simp [rowsArgs, ih]

theorem Binds_partsText (ps : List Sqlizer) (h : ∀ p ∈ ps, balanced p) :
    Binds (partsText ps).data (partsArgs ps) (boundJoin " " (ps.map boundFragment)) := by
  rw [partsArgs_flatten]
  exact Binds_join " " (by simp [noMarker]) (by simp) Sqlizer.sql Sqlizer.args boundFragment
    ps (fun p hp => Binds_fragment _ _ (h p hp))

theorem Binds_cast (t : List Char) (xs : List Value) (k : List (Bound Value)) (ty : String)
    (hty : noMarker ty) (h : Binds t xs k) :
    Binds (if ty ≠ "" then String.mk t ++ "::" ++ ty else String.mk t).data xs
      (k ++ boundCast ty) := by
  by_cases hne : ty = ""
  · simpa [hne, boundCast] using h
  · have hc : '?' ∉ ("::" ++ ty).data := noMarker_cast ty hty
    have := Binds_append _ _ _ _ _ _ h (Binds_raw (α := Value) ("::" ++ ty).data hc)
      (by simp [String.data_append])
    simpa [hne, boundCast, rawText, String.data_append, List.append_assoc] using this

theorem Binds_cellText (c : Value) (hty : noMarker (cellType c))
    (hfrag : ∀ s, cellFragment c = some s → balanced s) :
    Binds (cellText c).data (cellArgs c) (boundCell c) := by
  have one : ∀ v : Value, Binds ['?'] [v] [Bound.arg v] := fun v => by
    simpa [bindMarkers] using Binds_fragment ['?'] [v] (by simp [countMarkers])
  cases c with
  | nil => simpa [cellText, cellArgs, boundCell] using one Value.nil
  | int n => simpa [cellText, cellArgs, boundCell] using one (Value.int n)
  | str t => simpa [cellText, cellArgs, boundCell] using one (Value.str t)
  | sqlizer q a e =>
    have hb : markers q = a.length := hfrag ⟨q, a, e⟩ rfl
    simpa [cellText, cellArgs, boundCell] using Binds_fragment q.data a hb
  | typed ty v =>
    have hty2 : noMarker ty := hty
    cases v with
    | nil =>
      simpa [cellText, cellArgs, boundCell] using Binds_cast _ _ _ ty hty2 (one Value.nil)
    | int n =>
      simpa [cellText, cellArgs, boundCell] using Binds_cast _ _ _ ty hty2 (one (Value.int n))
    | str t =>
      simpa [cellText, cellArgs, boundCell] using Binds_cast _ _ _ ty hty2 (one (Value.str t))
    | typed ty2 v2 =>
      simpa [cellText, cellArgs, boundCell]
        using Binds_cast _ _ _ ty hty2 (one (Value.typed ty2 v2))
    | sqlizer q a e =>
      have hb : markers q = a.length := hfrag ⟨q, a, e⟩ rfl
      simpa [cellText, cellArgs, boundCell]
        using Binds_cast _ _ _ ty hty2 (Binds_fragment q.data a hb)

theorem Binds_rowText (row : List Value) (hty : ∀ c ∈ row, noMarker (cellType c))
    (hfrag : ∀ c ∈ row, ∀ s, cellFragment c = some s → balanced s) :
    Binds (rowText row).data (rowArgs row) (boundRow row) := by
  rw [rowArgs_flatten]
  have hj := Binds_join "," (by simp [noMarker]) (by simp) cellText cellArgs boundCell row
    (fun c hc => Binds_cellText c (hty c hc) (hfrag c hc))
  have h1 := Binds_append _ _ _ _ _ _ hj (Binds_raw (α := Value) ")".data (by simp))
    (by simp)
  have h2 := Binds_raw_left "(".data _ _ _ (by simp) h1
  simpa [rowText, boundRow, rawText, String.data_append, List.append_assoc] using h2

theorem Binds_rowsText (rows : List (List Value))
    (hty : ∀ row ∈ rows, ∀ c ∈ row, noMarker (cellType c))
    (hfrag : ∀ row ∈ rows, ∀ c ∈ row, ∀ s, cellFragment c = some s → balanced s) :
    Binds (rowsText rows).data (rowsArgs rows) (boundJoin "," (rows.map boundRow)) := by
  rw [rowsArgs_flatten]
  exact Binds_join "," (by simp [noMarker]) (by simp) rowText rowArgs boundRow rows
    (fun r hr => Binds_rowText r (hty r hr) (hfrag r hr))

theorem Binds_sourceText (d : mergeData)
    (hSel : ∀ s, d.Select = some s → balanced s)
    (hty : ∀ row ∈ d.Values, ∀ c ∈ row, noMarker (cellType c))
    (hfrag : ∀ row ∈ d.Values, ∀ c ∈ row, ∀ s, cellFragment c = some s → balanced s) :
    Binds (sourceText d).data (sourceArgs d) (boundSource d) := by
  unfold sourceText sourceArgs boundSource
  cases hs : d.Select with
  | some sel => exact Binds_fragment _ _ (hSel sel hs)
  | none =>
    have := Binds_raw_left "VALUES ".data _ _ _ (by simp)
      (Binds_rowsText d.Values hty hfrag)
    simpa [rawText, String.data_append] using this

theorem noMarker_writeClauses (d : mergeData) (hAlias : noMarker d.ValuesAlias)
    (hCols : ∀ c ∈ d.Columns, noMarker c) (hOn : noMarker d.On)
    (hWhen : ∀ w ∈ d.When, noMarker w) : noMarker (d.writeClauses "") := by
  rw [writeClauses_eq]
  have hA : noMarker (if d.ValuesAlias ≠ "" then " AS " ++ d.ValuesAlias ++ " " else "") := by
    by_cases h : d.ValuesAlias = ""
    · simp [h, noMarker]
    · simp only [ne_eq, h, not_false_eq_true, if_true]
      exact noMarker_append _ _ (noMarker_append _ _ (by simp [noMarker]) hAlias)
        (by simp [noMarker])
  have hC : noMarker (if d.Columns.length > 0 then "(" ++ join "," d.Columns ++ ")" else "") := by
    by_cases h : d.Columns.length > 0
    · rw [if_pos h]
      exact noMarker_append _ _ (noMarker_append _ _ (by simp [noMarker])
        (noMarker_join _ (by simp [noMarker]) _ hCols)) (by simp [noMarker])
    · rw [if_neg h]; simp [noMarker]
  have hO : noMarker (if d.On ≠ "" then " ON " ++ d.On else "") := by
    by_cases h : d.On = ""
    · simp [h, noMarker]
    · simp only [ne_eq, h, not_false_eq_true, if_true]
      exact noMarker_append _ _ (by simp [noMarker]) hOn
  have hW : noMarker (if d.When.length > 0 then " WHEN " ++ join " WHEN " d.When else "") := by
    by_cases h : d.When.length > 0
    · rw [if_pos h]
      exact noMarker_append _ _ (by simp [noMarker])
        (noMarker_join _ (by simp [noMarker]) _ hWhen)
    · rw [if_neg h]; simp [noMarker]
  exact noMarker_append _ _ (noMarker_append _ _ (noMarker_append _ _ (noMarker_append _ _
    (noMarker_append _ _ (by simp [noMarker]) (by simp [noMarker])) hA) hC) hO) hW

theorem statementText_eq_clauses (d : mergeData) :
    statementText d
      = (if d.Prefixes.length > 0 then partsText d.Prefixes ++ " " else "")
        ++ ("MERGE INTO " ++ (d.Into ++ (" USING (" ++ (sourceText d ++ (d.writeClauses ""
        ++ (if d.Suffixes.length > 0 then " " ++ partsText d.Suffixes else "")))))) := by
  rw [writeClauses_eq]
  simp [-String.reduceAppend, statementText, String.append_assoc]

theorem writeClauses_head (d : mergeData) : (d.writeClauses "").data.head? = some ')' := by
  rw [writeClauses_eq]
  simp [String.data_append]

/-- Binding the markers of the statement text to the statement arguments, left to right,
gives every fragment and cell its own arguments and leaves none over. -/
theorem bindMarkers_statementText (d : mergeData)
    (hInto : noMarker d.Into) (hAlias : noMarker d.ValuesAlias)
    (hCols : ∀ c ∈ d.Columns, noMarker c) (hOn : noMarker d.On)
    (hWhen : ∀ w ∈ d.When, noMarker w)
    (hPre : ∀ p ∈ d.Prefixes, balanced p) (hSuf : ∀ p ∈ d.Suffixes, balanced p)
    (hSel : ∀ s, d.Select = some s → balanced s)
    (hty : ∀ row ∈ d.Values, ∀ c ∈ row, noMarker (cellType c))
    (hfrag : ∀ row ∈ d.Values, ∀ c ∈ row, ∀ s, cellFragment c = some s → balanced s) :
    bindMarkers (statementText d).data (statementArgs d) = (boundStatement d, []) := by
  have hCl := noMarker_writeClauses d hAlias hCols hOn hWhen
  -- the suffixes
  have hX : Binds (if d.Suffixes.length > 0 then " " ++ partsText d.Suffixes else "").data
      (partsArgs d.Suffixes)
      (if d.Suffixes.length > 0 then
        rawText " " ++ boundJoin " " (d.Suffixes.map boundFragment) else []) := by
    by_cases h : d.Suffixes.length > 0
    · rw [if_pos h, if_pos h]
      have := Binds_raw_left " ".data _ _ _ (by simp) (Binds_partsText d.Suffixes hSuf)
      simpa [rawText, String.data_append] using this
    · have h0 : d.Suffixes = [] := by
        cases hd : d.Suffixes with
        | nil => rfl
        | cons a l => simp [hd] at h
      rw [if_neg h, if_neg h, h0]
      simpa [partsArgs] using Binds_raw (α := Value) [] (by simp)
  -- the clauses and the suffixes
  have h1 := Binds_raw_left (d.writeClauses "").data _ _ _ hCl hX
  -- the source
  have h2 := Binds_append _ _ _ _ _ _ (Binds_sourceText d hSel hty hfrag) h1
    (by rw [List.head?_append, writeClauses_head]; simp)
  have h3 := Binds_raw_left " USING (".data _ _ _ (by simp) h2
  have h4 := Binds_raw_left d.Into.data _ _ _ hInto h3
  have h5 := Binds_raw_left "MERGE INTO ".data _ _ _ (by simp) h4
  -- the prefixes
  have h6 : Binds (statementText d).data (statementArgs d) (boundStatement d) := by
    rw [statementText_eq_clauses]
    unfold boundStatement statementArgs
    by_cases h : d.Prefixes.length > 0
    · rw [if_pos h, if_pos h]
      have hp := Binds_append _ _ _ _ _ _ (Binds_partsText d.Prefixes hPre)
        (Binds_raw_left " ".data _ _ _ (by simp) h5) (by simp)
      simpa [rawText, String.data_append, List.append_assoc] using hp
    · have h0 : d.Prefixes = [] := by
        cases hd : d.Prefixes with
        | nil => rfl
        | cons a l => simp [hd] at h
      rw [if_neg h, if_neg h, h0]
      simpa [rawText, String.data_append, List.append_assoc, partsArgs] using h5
  have := h6 [] [] (by simp)
  simpa [bindMarkers] using this

theorem replacePositional_ordinal_aux (mark : List Char) (t : List Char) :
    (∀ i, replacePositional mark i t
        = ordinalText mark (bindMarkers t (List.range' (i + 1) (countMarkers t))).1) ∧
      ∀ c i, replacePositional mark i (c :: t)
        = ordinalText mark
            (bindMarkers (c :: t) (List.range' (i + 1) (countMarkers (c :: t)))).1 := by
  induction t with
  | nil =>
    refine ⟨fun i => by simp [replacePositional, bindMarkers, ordinalText], fun c i => ?_⟩
    by_cases hc : c = '?'
    · subst hc
      simp [replacePositional, bindMarkers, ordinalText, countMarkers, List.range']
    · simp [replacePositional, bindMarkers, ordinalText, countMarkers, hc]
  | cons d t ih =>
    refine ⟨ih.2 d, fun c i => ?_⟩
    by_cases hc : c = '?'
    · subst hc
      by_cases hd : d = '?'
      · subst hd
        simp [replacePositional, bindMarkers, ordinalText, countMarkers, ih.1 i]
      · have h := ih.2 d (i + 1)
        have e : List.range' (i + 1) (1 + countMarkers (d :: t))
            = (i + 1) :: List.range' (i + 1 + 1) (countMarkers (d :: t)) := by
          rw [Nat.add_comm 1, List.range'_succ]
        simp [replacePositional, bindMarkers, ordinalText, countMarkers, hd, e, h]
    · have h := ih.2 d i
      rw [countMarkers_cons_ne _ _ hc, bindMarkers_cons_ne _ _ _ hc]
      simp [replacePositional, ordinalText, hc, h]

/-- The ordinal rewrite writes the mark and the number `N` in place of the Nth unescaped
marker. -/
theorem replacePositional_ordinal (mark : List Char) (t : List Char) :
    replacePositional mark 0 t
      = ordinalText mark (bindMarkers t (List.range' 1 (countMarkers t))).1 :=
  (replacePositional_ordinal_aux mark t).1 0

/-- C7, as stated, fails: `Merge("t?").Values(1)` renders without error to
`MERGE INTO t? USING (VALUES (?))`, a text with two placeholder markers, and returns one
argument; and `Merge("t").Prefix("WITH p AS ?").Values(1)`, whose prefix has a marker and
no argument, renders two markers for one argument, the first marker being the prefix's. -/
theorem C7_markers_counterexample :
    markerInTableBuilder.ToSql = ("MERGE INTO t? USING (VALUES (?))", [Value.int 1], none) ∧
      markers markerInTableBuilder.ToSql.1 = 2 ∧
      markerInTableBuilder.ToSql.2.1.length = 1 ∧
      unboundPrefixBuilder.ToSql
        = ("WITH p AS ? MERGE INTO t USING (VALUES (?))", [Value.int 1], none) ∧
      markers unboundPrefixBuilder.ToSql.1 = 2 :=
  ⟨rfl, by decide, rfl, rfl, by decide⟩

/-- C7, amended: when `ToSql` succeeds on a snapshot whose raw strings (table, alias,
columns, `ON`, `WHEN` clauses, type names of `Typed` cells) hold no `?` and whose nested
fragments (prefixes, suffixes, sub-select, fragment cells) each carry as many unescaped
markers as arguments, then, for the text handed to the placeholder rewrite: the rendered
text is its rewrite; it has as many unescaped markers as arguments are returned; binding
its Nth marker to the Nth returned argument, left to right, gives every fragment and every
cell exactly its own arguments, with none left over; under `Question` it is the rendered
text; and under `Dollar` the rendered text is that text with `$N` in place of its Nth
marker, `N` running from 1 to the number of returned arguments. -/
theorem C7_markers_match_args (d : mergeData) (h : d.ToSql.2.2 = none)
    (hInto : noMarker d.Into) (hAlias : noMarker d.ValuesAlias)
    (hCols : ∀ c ∈ d.Columns, noMarker c) (hOn : noMarker d.On)
    (hWhen : ∀ w ∈ d.When, noMarker w)
    (hPre : ∀ p ∈ d.Prefixes, balanced p) (hSuf : ∀ p ∈ d.Suffixes, balanced p)
    (hSel : ∀ s, d.Select = some s → balanced s)
    (hty : ∀ row ∈ d.Values, ∀ c ∈ row, noMarker (cellType c))
    (hfrag : ∀ row ∈ d.Values, ∀ c ∈ row, ∀ s, cellFragment c = some s → balanced s) :
    d.ToSql.1 = (d.PlaceholderFormat.ReplacePlaceholders (statementText d)).1 ∧
      markers (statementText d) = d.ToSql.2.1.length ∧
      bindMarkers (statementText d).data d.ToSql.2.1 = (boundStatement d, []) ∧
      (d.PlaceholderFormat = Question → d.ToSql.1 = statementText d) ∧
      (d.PlaceholderFormat = Dollar →
        d.ToSql.1.data
          = ordinalText ['$']
              (bindMarkers (statementText d).data (List.range' 1 d.ToSql.2.1.length)).1) := by
  have hr := renders_of_ToSql_none d h
  have hT := ToSql_of_renders d hr
  have hA : d.ToSql.2.1 = statementArgs d := by rw [hT]
  have hM := markers_statementText d hInto hAlias hCols hOn hWhen hPre hSuf hSel hty hfrag
  refine ⟨by rw [hT], by rw [hA]; exact hM, ?_, ?_, ?_⟩
  · rw [hA]
    exact bindMarkers_statementText d hInto hAlias hCols hOn hWhen hPre hSuf hSel hty hfrag
  · intro hQ
    rw [hT, hQ]; rfl
  · intro hD
    rw [hA, ← hM]
    rw [hT, hD]
    exact replacePositional_ordinal ['$'] (statementText d).data

/-- C7, amended, at the builder of `TestMergeBuilderToSql`: three markers, three
arguments, binding them left to right gives the prefix its `0` and the two cells their
`1` and `2`; and under `Dollar` the markers of a prefix and of a cell read `$1`, `$2`. -/
theorem C7_markers_match_args_witness :
    testToSqlBuilder.ToSql.2.2 = none ∧ markers testToSqlBuilder.ToSql.1 = 3 ∧
      testToSqlBuilder.ToSql.2.1.length = 3 ∧
      bindMarkers testToSqlBuilder.ToSql.1.data testToSqlBuilder.ToSql.2.1
        = (rawText "WITH prefix AS " ++ [Bound.arg (Value.int 0)]
            ++ rawText " MERGE INTO a USING (VALUES (" ++ [Bound.arg (Value.int 1)]
            ++ rawText "," ++ [Bound.arg (Value.int 2)]
            ++ rawText (")) AS vals (b,c) ON a.b = vals.b AND a.c = vals.c " ++
              "WHEN MATCHED THEN UPDATE SET b = vals.b, c = vals.c " ++
              "WHEN NOT MATCHED THEN INSERT (b, c) VALUES (vals.b, vals.c) RETURNING a.b"),
          []) ∧
      ((((Merge "t").addPrefix "WITH p AS ?" [Value.int 0]).addValues
          [Value.int 1]).setPlaceholderFormat Dollar).ToSql
        = ("WITH p AS $1 MERGE INTO t USING (VALUES ($2))", [Value.int 0, Value.int 1],
            none) := by
  have H := C7_markers_match_args testToSqlBuilder rfl (by decide) (by decide)
      (by decide) (by decide) (by decide)
      (by
        intro p hp
        have : p = Expr "WITH prefix AS ?" [Value.int 0] := by
          simpa [testToSqlBuilder, mergeData.addSuffix, mergeData.SuffixExpr,
            mergeData.addWhen, mergeData.setOn, mergeData.addColumns,
            mergeData.setValuesAlias, mergeData.addValues, mergeData.addPrefix,
            mergeData.PrefixExpr, Merge] using hp
        rw [this]; decide)
      (by
        intro p hp
        have : p = Expr "RETURNING a.b" [] := by
          simpa [testToSqlBuilder, mergeData.addSuffix, mergeData.SuffixExpr,
            mergeData.addWhen, mergeData.setOn, mergeData.addColumns,
            mergeData.setValuesAlias, mergeData.addValues, mergeData.addPrefix,
            mergeData.PrefixExpr, Merge] using hp
        rw [this]; decide)
      (by intro s hs; exact absurd hs (by simp [testToSqlBuilder, mergeData.addSuffix,
            mergeData.SuffixExpr, mergeData.addWhen, mergeData.setOn, mergeData.addColumns,
            mergeData.setValuesAlias, mergeData.addValues, mergeData.addPrefix,
            mergeData.PrefixExpr, Merge]))
      (by
        intro row hrow c hc
        have hrow2 : row = [Value.int 1, Value.int 2] := by
          simpa [testToSqlBuilder, mergeData.addSuffix, mergeData.SuffixExpr,
            mergeData.addWhen, mergeData.setOn, mergeData.addColumns,
            mergeData.setValuesAlias, mergeData.addValues, mergeData.addPrefix,
            mergeData.PrefixExpr, Merge] using hrow
        rw [hrow2] at hc
        simp only [List.mem_cons, List.mem_singleton] at hc
        rcases hc with hc | hc | hc
        · rw [hc]; decide
        · rw [hc]; decide
        · exact absurd hc (List.not_mem_nil _))
      (by
        intro row hrow c hc
        have hrow2 : row = [Value.int 1, Value.int 2] := by
          simpa [testToSqlBuilder, mergeData.addSuffix, mergeData.SuffixExpr,
            mergeData.addWhen, mergeData.setOn, mergeData.addColumns,
            mergeData.setValuesAlias, mergeData.addValues, mergeData.addPrefix,
            mergeData.PrefixExpr, Merge] using hrow
        rw [hrow2] at hc
        simp only [List.mem_cons, List.mem_singleton] at hc
        rcases hc with hc | hc | hc
        · rw [hc]; intro s hs; simp [cellFragment, Value.asSqlizer] at hs
        · rw [hc]; intro s hs; simp [cellFragment, Value.asSqlizer] at hs
        · exact absurd hc (List.not_mem_nil _))
  exact ⟨rfl, H.2.1.trans rfl, rfl, H.2.2.1.trans rfl, rfl⟩

end Squirrel
